import Mathlib

/-!
# FreeRTOS+POSIX condition variables (`FreeRTOS_POSIX_pthread_cond.c`)

A shallow embedding of the condition variable implementation.  Every C function
becomes a Lean function from the state of the condition variable (and an
environment describing the kernel, allocator, clock and mutex collaborators)
to an outcome made of the returned status, the new state of the condition
variable and the trace of calls and waiter-slot accesses it performed, in
program order.
-/

namespace PthreadCond

/-! ## Data model -/

/-- Modelled from the spec: the kernel header declaring `TaskHandle_t` is not among
the sources.  A task handle is a pointer to a task control block; `0` is the null
pointer, the content of an empty waiter slot. -/
abbrev TaskHandle_t := Nat

/-- Modelled from the spec: the kernel header declaring `TickType_t` is not among the
sources.  A scheduler tick count. -/
abbrev TickType_t := Nat

/-- The null task handle, the content of an empty waiter slot. -/
abbrev NULL : TaskHandle_t := 0

/-- Modelled from the spec: `FreeRTOS_POSIX/errno.h` is not among the sources.  The
resource-exhaustion status `ENOMEM`, with its customary value. -/
abbrev ENOMEM : Int := 12

/-- Modelled from the spec: `FreeRTOS_POSIX/errno.h` is not among the sources.  The
invalid-argument status `EINVAL`, with its customary value. -/
abbrev EINVAL : Int := 22

/-- Modelled from the spec: `FreeRTOS_POSIX/errno.h` is not among the sources.  The
deadline-exceeded status `ETIMEDOUT`, with its customary value. -/
abbrev ETIMEDOUT : Int := 116

/-- Modelled from the spec: the header declaring `struct timespec` is not among the
sources.  A point on the realtime clock, in seconds and nanoseconds. -/
structure timespec where
  tv_sec : Int
  tv_nsec : Int
deriving DecidableEq

/-- Modelled from the spec: the declaration of `pthread_cond_internal_t` is not among
the sources.  The condition variable has the three fields the source reads and
writes, which are the three of the data model: `xIsInitialized` (`initialized`,
`pdFALSE`/`pdTRUE`), the pointer `xTasksWaiting` (`waiters`; `none` is the null
pointer, `some ws` a block whose slots hold `ws`) and `tasksLenth`
(`waiterCapacity`, an integer that the source compares with 0 and with an `int`
index). -/
structure pthread_cond_internal_t where
  xIsInitialized : Bool
  xTasksWaiting : Option (List TaskHandle_t)
  tasksLenth : Int
deriving DecidableEq

/-- One observable step of an operation: a call to a collaborator (with the value
it returned where the code looks at it) or an access to a waiter slot. -/
inductive Event where
  | vTaskSuspendAll
  | xTaskResumeAll
  | taskENTER_CRITICAL
  | taskEXIT_CRITICAL
  | pvPortMalloc (slots : Nat) (ok : Bool)
  | slotRead (i : Nat)
  | slotWrite (i : Nat) (h : TaskHandle_t)
  | xTaskNotify (h : TaskHandle_t)
  | uxTaskPriorityGet (h : TaskHandle_t)
  | xTaskGetCurrentTaskHandle
  | clock_gettime (ret : Int)
  | UTILS_AbsoluteTimespecToDeltaTicks (ret : Int)
  | pthread_mutex_unlock (mutex : Nat) (ret : Int)
  | pthread_mutex_lock (mutex : Nat) (ret : Int)
  | xTaskNotifyWait (xDelay : TickType_t) (ret : Bool)
deriving DecidableEq

/-- The collaborators of the condition variable, none of which is defined in the
file under study: they are parameters of the embedding.

* `pvPortMalloc n` is the allocation of a block of `n` task handles (the source
  asks for `sizeof(TaskHandle_t) * tasksLenth` bytes): `none` when it fails,
  `some g` when it succeeds with slot `i` initially holding `g i`.
* `uxTaskPriorityGet` is the current priority of each task.
* `xTaskGetCurrentTaskHandle` is the handle of the calling task.
* `clock_gettime` is the status and the time read from the realtime clock.
* `UTILS_AbsoluteTimespecToDeltaTicks abstime now` is the status of the deadline
  conversion and the value it leaves in `xDelay`.
* `portMAX_DELAY` is the infinite delay.
* `pthread_mutex_unlock`, `pthread_mutex_lock` give the status of the mutex calls.
* `xTaskNotifyWait d` tells whether the blocking wait with delay `d` returns `pdPASS`.
* `otherTasks` is what the other tasks do to the waiter slots while the caller
  is outside its critical sections, between registering and de-registering. -/
structure Env where
  pvPortMalloc : Nat → Option (Nat → TaskHandle_t)
  uxTaskPriorityGet : TaskHandle_t → Nat
  xTaskGetCurrentTaskHandle : TaskHandle_t
  clock_gettime : Int × timespec
  UTILS_AbsoluteTimespecToDeltaTicks : timespec → timespec → Int × TickType_t
  portMAX_DELAY : TickType_t
  pthread_mutex_unlock : Nat → Int
  pthread_mutex_lock : Nat → Int
  xTaskNotifyWait : TickType_t → Bool
  otherTasks : List TaskHandle_t → List TaskHandle_t

/-- Result of `prvInitializeStaticCond`: returned flag, new state, trace. -/
structure InitOutcome where
  ret : Bool
  cond : pthread_cond_internal_t
  trace : List Event

/-- Result of a public operation: returned status, new state, trace. -/
structure Outcome where
  status : Int
  cond : pthread_cond_internal_t
  trace : List Event

/-- The slots reachable through `xTasksWaiting` (none through a null pointer). -/
def slots (pxCond : pthread_cond_internal_t) : List TaskHandle_t :=
  pxCond.xTasksWaiting.getD []

/-- The state after writes through `xTasksWaiting` have left `ws` in the slots
(there is nothing to write through a null pointer). -/
def withSlots (pxCond : pthread_cond_internal_t) (ws : List TaskHandle_t) :
    pthread_cond_internal_t :=
  { pxCond with xTasksWaiting := pxCond.xTasksWaiting.map (fun _ => ws) }

/-- Read of `xTasksWaiting[i]`.  The loops index the slots below `tasksLenth`; the
claims are stated for blocks of exactly `tasksLenth` slots (`Ready`), where every
such access is within the block.  Outside the block the C behaviour is undefined:
there the embedding reads an empty slot, and `List.set` writes nothing. -/
def rd (ws : List TaskHandle_t) (i : Nat) : TaskHandle_t :=
  (ws[i]?).getD NULL

/-! ## The loops of the source

Each `for( i = 0; i < pxCond->tasksLenth; i++ )` loop is a function of the number
of iterations left and of the current index `i`. -/

/-- Loop of lines 75-78: `xTasksWaiting[i] = NULL` for every `i`. -/
def zeroLoop : Nat → Nat → List TaskHandle_t → List TaskHandle_t × List Event
  | 0, _, ws => (ws, [])
  | k + 1, i, ws =>
    let r := zeroLoop k (i + 1) (ws.set i NULL)
    (r.1, Event.slotWrite i NULL :: r.2)

/-- Loop of lines 109-116: notify and clear every occupied slot. -/
def broadcastLoop : Nat → Nat → List TaskHandle_t → List TaskHandle_t × List Event
  | 0, _, ws => (ws, [])
  | k + 1, i, ws =>
    if rd ws i ≠ NULL then
      let r := broadcastLoop k (i + 1) (ws.set i NULL)
      (r.1, Event.slotRead i :: Event.slotRead i :: Event.xTaskNotify (rd ws i)
              :: Event.slotWrite i NULL :: r.2)
    else
      let r := broadcastLoop k (i + 1) ws
      (r.1, Event.slotRead i :: r.2)

/-- Loop of lines 196-221: `xTaskToNotify` is a pointer to a slot, here the index
of that slot (`none` for the null pointer).  The first occupied slot is taken; a
later occupied slot replaces the candidate only when its task has a strictly
greater priority. -/
def signalScan (prio : TaskHandle_t → Nat) (ws : List TaskHandle_t) :
    Nat → Nat → Option Nat → Option Nat × List Event
  | 0, _, xTaskToNotify => (xTaskToNotify, [])
  | k + 1, i, xTaskToNotify =>
    if rd ws i ≠ NULL then
      match xTaskToNotify with
      | none =>
        let r := signalScan prio ws k (i + 1) (some i)
        (r.1, Event.slotRead i :: r.2)
      | some j =>
        if prio (rd ws j) < prio (rd ws i) then
          let r := signalScan prio ws k (i + 1) (some i)
          (r.1, Event.slotRead i :: Event.slotRead j :: Event.uxTaskPriorityGet (rd ws j)
                  :: Event.slotRead i :: Event.uxTaskPriorityGet (rd ws i) :: r.2)
        else
          let r := signalScan prio ws k (i + 1) (some j)
          (r.1, Event.slotRead i :: Event.slotRead j :: Event.uxTaskPriorityGet (rd ws j)
                  :: Event.slotRead i :: Event.uxTaskPriorityGet (rd ws i) :: r.2)
    else
      let r := signalScan prio ws k (i + 1) xTaskToNotify
      (r.1, Event.slotRead i :: r.2)

/-- Loop of lines 277-285: put the caller in the first empty slot and stop; the
flag is `iSet`. -/
def registerLoop (cur : TaskHandle_t) :
    Nat → Nat → List TaskHandle_t → List TaskHandle_t × Bool × List Event
  | 0, _, ws => (ws, false, [])
  | k + 1, i, ws =>
    if rd ws i = NULL then
      (ws.set i cur, true,
        [Event.slotRead i, Event.xTaskGetCurrentTaskHandle, Event.slotWrite i cur])
    else
      let r := registerLoop cur k (i + 1) ws
      (r.1, r.2.1, Event.slotRead i :: r.2.2)

/-- Loop of lines 324-331: clear the first slot that holds the caller and stop. -/
def deregisterLoop (cur : TaskHandle_t) :
    Nat → Nat → List TaskHandle_t → List TaskHandle_t × List Event
  | 0, _, ws => (ws, [])
  | k + 1, i, ws =>
    if rd ws i = cur then
      (ws.set i NULL,
        [Event.slotRead i, Event.xTaskGetCurrentTaskHandle, Event.slotWrite i NULL])
    else
      let r := deregisterLoop cur k (i + 1) ws
      (r.1, Event.slotRead i :: Event.xTaskGetCurrentTaskHandle :: r.2)

/-! ## The functions of the source -/

/-- Lazy initialisation, lines 55-89.  The function returns `pxCond->xIsInitialized`
as it stands at the end. -/
def prvInitializeStaticCond (env : Env) (pxCond : pthread_cond_internal_t) : InitOutcome :=
  if pxCond.xIsInitialized = false then
    if pxCond.xIsInitialized = false ∧ pxCond.tasksLenth > 0 then
      let n := pxCond.tasksLenth.toNat
      match env.pvPortMalloc n with
      | some block =>
        let z := zeroLoop n 0 ((List.range n).map block)
        let c : pthread_cond_internal_t :=
          { pxCond with xTasksWaiting := some z.1, xIsInitialized := true }
        ⟨c.xIsInitialized, c,
          [Event.vTaskSuspendAll, Event.pvPortMalloc n true] ++ z.2 ++ [Event.xTaskResumeAll]⟩
      | none =>
        let c : pthread_cond_internal_t := { pxCond with xTasksWaiting := none }
        ⟨c.xIsInitialized, c,
          [Event.vTaskSuspendAll, Event.pvPortMalloc n false, Event.xTaskResumeAll]⟩
    else
      ⟨pxCond.xIsInitialized, pxCond, [Event.vTaskSuspendAll, Event.xTaskResumeAll]⟩
  else
    ⟨pxCond.xIsInitialized, pxCond, []⟩

/-- Wake all, lines 93-122. -/
def pthread_cond_broadcast (env : Env) (cond : pthread_cond_internal_t) : Outcome :=
  let r := prvInitializeStaticCond env cond
  if r.ret = false then
    ⟨ENOMEM, r.cond, r.trace⟩
  else
    let pxCond := r.cond
    let b := broadcastLoop pxCond.tasksLenth.toNat 0 (slots pxCond)
    ⟨0, withSlots pxCond b.1,
      r.trace ++ [Event.taskENTER_CRITICAL] ++ b.2 ++ [Event.taskEXIT_CRITICAL]⟩

/-- Wake one, lines 179-233. -/
def pthread_cond_signal (env : Env) (cond : pthread_cond_internal_t) : Outcome :=
  let r := prvInitializeStaticCond env cond
  if r.ret = false then
    ⟨ENOMEM, r.cond, r.trace⟩
  else
    let pxCond := r.cond
    let ws := slots pxCond
    let s := signalScan env.uxTaskPriorityGet ws pxCond.tasksLenth.toNat 0 none
    match s.1 with
    | some j =>
      ⟨0, withSlots pxCond (ws.set j NULL),
        r.trace ++ [Event.taskENTER_CRITICAL] ++ s.2
          ++ [Event.slotRead j, Event.xTaskNotify (rd ws j), Event.slotWrite j NULL,
              Event.taskEXIT_CRITICAL]⟩
    | none =>
      ⟨0, pxCond, r.trace ++ [Event.taskENTER_CRITICAL] ++ s.2 ++ [Event.taskEXIT_CRITICAL]⟩

/-- Conversion of the deadline, lines 254-268: status, `xDelay` and trace. -/
def deadlineToDelay (env : Env) (abstime : Option timespec) : Int × TickType_t × List Event :=
  match abstime with
  | none => (0, env.portMAX_DELAY, [])
  | some a =>
    if env.clock_gettime.1 ≠ 0 then
      (EINVAL, env.portMAX_DELAY, [Event.clock_gettime env.clock_gettime.1])
    else
      let u := env.UTILS_AbsoluteTimespecToDeltaTicks a env.clock_gettime.2
      (u.1, u.2, [Event.clock_gettime env.clock_gettime.1,
                  Event.UTILS_AbsoluteTimespecToDeltaTicks u.1])

/-- Timed wait, lines 237-339. -/
def pthread_cond_timedwait (env : Env) (cond : pthread_cond_internal_t) (mutex : Nat)
    (abstime : Option timespec) : Outcome :=
  let r := prvInitializeStaticCond env cond
  if r.ret = false then
    ⟨ENOMEM, r.cond, r.trace⟩
  else
    let pxCond := r.cond
    let n := pxCond.tasksLenth.toNat
    let cur := env.xTaskGetCurrentTaskHandle
    let d := deadlineToDelay env abstime
    let xDelay := d.2.1
    if d.1 = 0 then
      let reg := registerLoop cur n 0 (slots pxCond)
      let t1 := r.trace ++ d.2.2 ++ [Event.taskENTER_CRITICAL] ++ reg.2.2
                  ++ [Event.taskEXIT_CRITICAL]
      if reg.2.1 = false then
        ⟨ENOMEM, pxCond, t1⟩
      else
        let iUnlock := env.pthread_mutex_unlock mutex
        if iUnlock = 0 then
          let woken := env.xTaskNotifyWait xDelay
          let iLock := env.pthread_mutex_lock mutex
          let iStatus := if woken = true then iLock else ETIMEDOUT
          let de := deregisterLoop cur n 0 (env.otherTasks reg.1)
          ⟨iStatus, withSlots pxCond de.1,
            t1 ++ [Event.pthread_mutex_unlock mutex iUnlock,
                   Event.xTaskNotifyWait xDelay woken,
                   Event.pthread_mutex_lock mutex iLock,
                   Event.taskENTER_CRITICAL] ++ de.2 ++ [Event.taskEXIT_CRITICAL]⟩
        else
          ⟨iUnlock, withSlots pxCond reg.1,
            t1 ++ [Event.pthread_mutex_unlock mutex iUnlock]⟩
    else
      ⟨d.1, pxCond, r.trace ++ d.2.2⟩

/-- Wait, lines 343-347. -/
def pthread_cond_wait (env : Env) (cond : pthread_cond_internal_t) (mutex : Nat) : Outcome :=
  pthread_cond_timedwait env cond mutex none

/-- Some `k` successive calls of `pthread_cond_signal` with nothing in between:
the final state and the traces of the calls one after the other. -/
def signalTimes (env : Env) :
    Nat → pthread_cond_internal_t → pthread_cond_internal_t × List Event
  | 0, c => (c, [])
  | k + 1, c =>
    let o := pthread_cond_signal env c
    let r := signalTimes env k o.cond
    (r.1, o.trace ++ r.2)

/-! ## Observations on traces and slots -/

/-- The tasks notified by a trace, in order. -/
def notified (t : List Event) : List TaskHandle_t :=
  t.filterMap fun e => match e with
    | Event.xTaskNotify h => some h
    | _ => none

/-- The calls to `pthread_mutex_unlock`, `pthread_mutex_lock` and the blocking
`xTaskNotifyWait` made by a trace, in order. -/
def syncCalls (t : List Event) : List Event :=
  t.filter fun e => match e with
    | Event.pthread_mutex_unlock _ _ => true
    | Event.pthread_mutex_lock _ _ => true
    | Event.xTaskNotifyWait _ _ => true
    | _ => false

/-- The reads and writes of waiter slots made by a trace, in order. -/
def slotAccesses (t : List Event) : List Event :=
  t.filter fun e => match e with
    | Event.slotRead _ => true
    | Event.slotWrite _ _ => true
    | _ => false

/-- The handles held by the occupied slots, in slot order. -/
def occupied (ws : List TaskHandle_t) : List TaskHandle_t :=
  ws.filter fun h => decide (h ≠ NULL)

/-- A list with its first empty slot, if any, given to `cur`: the list view of the
registration loop. -/
def putFirst (cur : TaskHandle_t) : List TaskHandle_t → List TaskHandle_t
  | [] => []
  | a :: l => if a = NULL then cur :: l else a :: putFirst cur l

/-- A list with the first slot holding `cur`, if any, emptied: the list view of the
de-registration loop. -/
def clearFirst (cur : TaskHandle_t) : List TaskHandle_t → List TaskHandle_t
  | [] => []
  | a :: l => if a = cur then NULL :: l else a :: clearFirst cur l

/-- What the scan of `pthread_cond_signal` knows after looking at the slots below `i`:
no candidate means they are all empty; candidate `j` is an occupied slot below `i`
whose priority is at least that of every occupied slot below `i` and strictly
greater than that of every occupied slot before `j`. -/
def ScanInv (prio : TaskHandle_t → Nat) (ws : List TaskHandle_t) (i : Nat) : Option Nat → Prop
  | none => ∀ m, m < i → rd ws m = NULL
  | some j => j < i ∧ rd ws j ≠ NULL
      ∧ (∀ m, m < i → rd ws m ≠ NULL → prio (rd ws m) ≤ prio (rd ws j))
      ∧ (∀ m, m < j → rd ws m ≠ NULL → prio (rd ws m) < prio (rd ws j))

/-- An initialised condition variable whose waiter array holds `ws`:
`xIsInitialized` is `pdTRUE` and `xTasksWaiting` points to `tasksLenth` slots. -/
def Ready (c : pthread_cond_internal_t) (ws : List TaskHandle_t) : Prop :=
  c.xIsInitialized = true ∧ c.xTasksWaiting = some ws ∧ (ws.length : Int) = c.tasksLenth

instance (c : pthread_cond_internal_t) (ws : List TaskHandle_t) : Decidable (Ready c ws) := by
  unfold Ready
  infer_instance

/-- A concrete environment: the priority of task `h` is `h - 10`, the caller is
task `14`, allocation succeeds on a block of garbage, the clock and the mutex
calls succeed, the blocking wait times out, no other task interferes. -/
def exampleEnv : Env where
  pvPortMalloc := fun _ => some (fun i => i + 7)
  uxTaskPriorityGet := fun h => h - 10
  xTaskGetCurrentTaskHandle := 14
  clock_gettime := (0, ⟨0, 0⟩)
  UTILS_AbsoluteTimespecToDeltaTicks := fun _ _ => (0, 5)
  portMAX_DELAY := 4294967295
  pthread_mutex_unlock := fun _ => 0
  pthread_mutex_lock := fun _ => 0
  xTaskNotifyWait := fun _ => false
  otherTasks := fun ws => ws

/-- The environment `exampleEnv` with a mutex that the caller does not own:
`pthread_mutex_unlock` fails with status 1 (`EPERM`). -/
def unlockFailsEnv : Env := { exampleEnv with pthread_mutex_unlock := fun _ => 1 }

/-- The environment `exampleEnv` with a blocking wait that ends on a notification. -/
def notifiedEnv : Env := { exampleEnv with xTaskNotifyWait := fun _ => true }

/-- The environment `exampleEnv` with a realtime clock whose read fails. -/
def clockFailsEnv : Env := { exampleEnv with clock_gettime := (-1, ⟨0, 0⟩) }

/-- The environment `exampleEnv` with an allocator that has no memory left. -/
def noMemoryEnv : Env := { exampleEnv with pvPortMalloc := fun _ => none }

/-- A statically declared condition variable of capacity 3, not yet initialised. -/
def staticCond : pthread_cond_internal_t := ⟨false, none, 3⟩

/-- An initialised condition variable of three slots, task `11` waiting. -/
def oneWaiterCond : pthread_cond_internal_t := ⟨true, some [11, 0, 0], 3⟩

/-- Three waiters, tasks `11`, `13`, `12`, of priorities 1, 3, 2 under `exampleEnv`. -/
def exampleCond : pthread_cond_internal_t := ⟨true, some [11, 13, 12], 3⟩

/-- Explicit initialisation, lines 138-175.  The configuration constant
`posixconfigPTHREAD_COND_MAX_WAITERS` is defined by no file of the sources: it is a
parameter.  The condition variable is an object, so the test `pxCond == NULL` of
line 151 fails and `iStatus` is still 0 at line 156. -/
def pthread_cond_init (env : Env) (posixconfigPTHREAD_COND_MAX_WAITERS : Nat)
    (cond : pthread_cond_internal_t) : Outcome :=
  let pxCond : pthread_cond_internal_t :=
    { cond with tasksLenth := (posixconfigPTHREAD_COND_MAX_WAITERS : Int) }
  let n := pxCond.tasksLenth.toNat
  match env.pvPortMalloc n with
  | some block =>
    let z := zeroLoop n 0 ((List.range n).map block)
    ⟨0, { pxCond with xTasksWaiting := some z.1, xIsInitialized := true },
      [Event.pvPortMalloc n true] ++ z.2⟩
  | none =>
    ⟨ENOMEM, { pxCond with xTasksWaiting := none }, [Event.pvPortMalloc n false]⟩

/-- The events that the loops over the waiter array produce: slot accesses,
notifications, priority queries and queries of the current task. -/
def loopEvent : Event → Bool
  | Event.slotRead _ => true
  | Event.slotWrite _ _ => true
  | Event.xTaskNotify _ => true
  | Event.uxTaskPriorityGet _ => true
  | Event.xTaskGetCurrentTaskHandle => true
  | _ => false

/-- The steps of a lazy or explicit initialisation made by a trace: the
scheduler-wide suspend region and the allocation. -/
def initSteps (t : List Event) : List Event :=
  t.filter fun e => match e with
    | Event.vTaskSuspendAll => true
    | Event.xTaskResumeAll => true
    | Event.pvPortMalloc _ _ => true
    | _ => false

/-- The reads of the realtime clock and the deadline conversions made by a trace. -/
def clockReads (t : List Event) : List Event :=
  t.filter fun e => match e with
    | Event.clock_gettime _ => true
    | Event.UTILS_AbsoluteTimespecToDeltaTicks _ => true
    | _ => false

/-- The delays with which a trace calls the blocking `xTaskNotifyWait`. -/
def waitDelays (t : List Event) : List TickType_t :=
  t.filterMap fun e => match e with
    | Event.xTaskNotifyWait d _ => some d
    | _ => none

/-- The environment `exampleEnv` with priorities that tie: the priority of task
`h` is `h % 10`, so tasks `13` and `23` both have priority 3. -/
def tieEnv : Env := { exampleEnv with uxTaskPriorityGet := fun h => h % 10 }

/-- The environment `notifiedEnv` (the wait ends on a notification) with a re-lock
of the mutex that fails with status 1. -/
def relockFailsEnv : Env := { notifiedEnv with pthread_mutex_lock := fun _ => 1 }

/-- The environment `exampleEnv` (the wait times out) with a re-lock of the mutex
that fails with status 1. -/
def timeoutRelockFailsEnv : Env := { exampleEnv with pthread_mutex_lock := fun _ => 1 }

/-- The invariant of the data model: a task handle appears in at most one slot of
the waiter array. -/
def SlotsDistinct (ws : List TaskHandle_t) : Prop :=
  (occupied ws).Nodup

instance (ws : List TaskHandle_t) : Decidable (SlotsDistinct ws) := by
  unfold SlotsDistinct
  infer_instance

theorem prvInitializeStaticCond_of_initialized (env : Env) (c : pthread_cond_internal_t)
    (h : c.xIsInitialized = true) : prvInitializeStaticCond env c = ⟨true, c, []⟩ := by
  simp [prvInitializeStaticCond, h]

theorem rd_mem (ws : List TaskHandle_t) (i : Nat) (h : rd ws i ≠ NULL) : rd ws i ∈ ws := by
  unfold rd at *
  cases hg : ws[i]? with
  | none => simp [hg] at h
  | some a => simpa [hg] using List.getElem?_mem hg

theorem rd_lt (ws : List TaskHandle_t) (i : Nat) (h : rd ws i ≠ NULL) : i < ws.length := by
  by_contra hlt
  have : ws[i]? = none := List.getElem?_eq_none (by omega)
  simp [rd, this] at h

theorem mem_rd (ws : List TaskHandle_t) (a : TaskHandle_t) (h : a ∈ ws) :
    ∃ i, i < ws.length ∧ rd ws i = a := by
  obtain ⟨i, hi, he⟩ := List.getElem_of_mem h
  exact ⟨i, hi, by simp [rd, List.getElem?_eq_getElem hi, he]⟩

theorem signalScan_notified (prio : TaskHandle_t → Nat) (ws : List TaskHandle_t) (k i : Nat)
    (p : Option Nat) : notified (signalScan prio ws k i p).2 = [] := by
  induction k generalizing i p with
  | zero => simp [signalScan, notified]
  | succ k ih =>
    have ih' := fun i p => ih i p
    simp only [notified] at ih' ⊢
    unfold signalScan
    split
    · cases p with
      | none => simp [ih']
      | some j =>
        simp only
        split <;> simp [ih']
    · simp [ih']

theorem signalScan_inv (prio : TaskHandle_t → Nat) (ws : List TaskHandle_t) (k i : Nat)
    (p : Option Nat) (h : ScanInv prio ws i p) :
    ScanInv prio ws (i + k) (signalScan prio ws k i p).1 := by
  induction k generalizing i p with
  | zero => simpa [signalScan] using h
  | succ k ih =>
    have e : i + (k + 1) = (i + 1) + k := by omega
    rw [e]
    unfold signalScan
    split
    · rename_i hocc
      cases p with
      | none =>
        apply ih
        refine ⟨by omega, hocc, ?_, ?_⟩
        · intro m hm hne
          rcases Nat.lt_succ_iff_lt_or_eq.mp hm with hlt | heq
          · exact absurd (h m hlt) hne
          · subst heq; exact le_refl _
        · intro m hm hne
          exact absurd (h m hm) hne
      | some j =>
        obtain ⟨hj, hjne, hmax, hfirst⟩ := h
        simp only
        split
        · rename_i hlt
          apply ih
          refine ⟨by omega, hocc, ?_, ?_⟩
          · intro m hm hne
            rcases Nat.lt_succ_iff_lt_or_eq.mp hm with hlt2 | heq
            · exact le_of_lt (lt_of_le_of_lt (hmax m hlt2 hne) hlt)
            · subst heq; exact le_refl _
          · intro m hm hne
            exact lt_of_le_of_lt (hmax m hm hne) hlt
        · rename_i hnlt
          apply ih
          refine ⟨by omega, hjne, ?_, hfirst⟩
          intro m hm hne
          rcases Nat.lt_succ_iff_lt_or_eq.mp hm with hlt2 | heq
          · exact hmax m hlt2 hne
          · subst heq; exact Nat.le_of_not_lt hnlt
    · rename_i hemp
      apply ih
      have hemp' : rd ws i = NULL := by simpa using hemp
      cases p with
      | none =>
        intro m hm
        rcases Nat.lt_succ_iff_lt_or_eq.mp hm with hlt | heq
        · exact h m hlt
        · subst heq; exact hemp'
      | some j =>
        obtain ⟨hj, hjne, hmax, hfirst⟩ := h
        refine ⟨by omega, hjne, ?_, hfirst⟩
        intro m hm hne
        rcases Nat.lt_succ_iff_lt_or_eq.mp hm with hlt | heq
        · exact hmax m hlt hne
        · subst heq; exact absurd hemp' hne

/-- The scan over a whole array with an occupied slot ends on a candidate. -/
theorem signalScan_full (prio : TaskHandle_t → Nat) (ws : List TaskHandle_t)
    (hocc : ∃ h, h ∈ ws ∧ h ≠ NULL) :
    ∃ j, (signalScan prio ws ws.length 0 none).1 = some j ∧ ScanInv prio ws ws.length (some j) := by
  have hinv := signalScan_inv prio ws ws.length 0 none (by intro m hm; omega)
  rw [Nat.zero_add] at hinv
  cases hs : (signalScan prio ws ws.length 0 none).1 with
  | none =>
    rw [hs] at hinv
    obtain ⟨a, ha, hne⟩ := hocc
    obtain ⟨i, hi, hr⟩ := mem_rd ws a ha
    exact absurd (hr ▸ hinv i hi) hne
  | some j =>
    rw [hs] at hinv
    exact ⟨j, rfl, hinv⟩

/-- What `pthread_cond_signal` does on an initialised condition variable, in terms
of the result of its scan. -/
theorem pthread_cond_signal_ready (env : Env) (c : pthread_cond_internal_t)
    (ws : List TaskHandle_t) (h : Ready c ws) :
    pthread_cond_signal env c =
      match (signalScan env.uxTaskPriorityGet ws ws.length 0 none).1 with
      | some j =>
        ⟨0, { c with xTasksWaiting := some (ws.set j NULL) },
          [Event.taskENTER_CRITICAL]
            ++ (signalScan env.uxTaskPriorityGet ws ws.length 0 none).2
            ++ [Event.slotRead j, Event.xTaskNotify (rd ws j), Event.slotWrite j NULL,
                Event.taskEXIT_CRITICAL]⟩
      | none =>
        ⟨0, c, [Event.taskENTER_CRITICAL]
            ++ (signalScan env.uxTaskPriorityGet ws ws.length 0 none).2
            ++ [Event.taskEXIT_CRITICAL]⟩ := by
  obtain ⟨hinit, hws, hlen⟩ := h
  have hn : c.tasksLenth.toNat = ws.length := by omega
  unfold pthread_cond_signal
  rw [prvInitializeStaticCond_of_initialized env c hinit]
  simp only [slots, hws, Option.getD_some, hn, Bool.true_eq_false, if_false]
  cases (signalScan env.uxTaskPriorityGet ws ws.length 0 none).1 with
  | none => simp
  | some j => simp [withSlots, hws]

theorem notified_append (s t : List Event) : notified (s ++ t) = notified s ++ notified t := by
  simp [notified, List.filterMap_append]

theorem rd_cons_succ (a : TaskHandle_t) (l : List TaskHandle_t) (j : Nat) :
    rd (a :: l) (j + 1) = rd l j := by
  simp [rd]

theorem rd_cons_zero (a : TaskHandle_t) (l : List TaskHandle_t) : rd (a :: l) 0 = a := by
  simp [rd]

theorem occupied_cons (a : TaskHandle_t) (l : List TaskHandle_t) :
    occupied (a :: l) = if a ≠ NULL then a :: occupied l else occupied l := by
  by_cases h : a = 0 <;> simp [occupied, List.filter_cons, h]

theorem mem_occupied (ws : List TaskHandle_t) (a : TaskHandle_t) :
    a ∈ occupied ws ↔ a ∈ ws ∧ a ≠ NULL := by
  simp [occupied]

/-- Emptying an occupied slot removes exactly its handle from the occupied ones. -/
theorem occupied_set_perm (ws : List TaskHandle_t) (j : Nat) (h : rd ws j ≠ NULL) :
    (occupied ws).Perm (rd ws j :: occupied (ws.set j NULL)) := by
  induction ws generalizing j with
  | nil => simp [rd] at h
  | cons a l ih =>
    cases j with
    | zero =>
      rw [rd_cons_zero] at h ⊢
      simp [occupied_cons, h]
    | succ j =>
      rw [rd_cons_succ] at h ⊢
      rw [List.set_cons_succ, occupied_cons, occupied_cons]
      by_cases ha : a = NULL
      · simpa [ha] using ih j h
      · simp only [ne_eq, ha, not_false_eq_true, if_true]
        exact ((ih j h).cons a).trans (List.Perm.swap _ _ _)

theorem occupied_eq_nil (ws : List TaskHandle_t) (h : occupied ws = []) :
    ws = List.replicate ws.length NULL := by
  induction ws with
  | nil => rfl
  | cons a l ih =>
    rw [occupied_cons] at h
    by_cases ha : a = NULL
    · simp only [ha, ne_eq, not_true_eq_false, if_false] at h
      rw [List.length_cons, List.replicate_succ, ← ih h, ha]
    · simp [ha] at h

theorem ready_set (c : pthread_cond_internal_t) (ws : List TaskHandle_t) (j : Nat)
    (a : TaskHandle_t) (h : Ready c ws) :
    Ready { c with xTasksWaiting := some (ws.set j a) } (ws.set j a) := by
  obtain ⟨h1, -, h3⟩ := h
  exact ⟨h1, rfl, by simpa using h3⟩

theorem rd_append (pre rest : List TaskHandle_t) (a : TaskHandle_t) :
    rd (pre ++ a :: rest) pre.length = a := by
  unfold rd
  rw [List.getElem?_append_right (le_refl _)]
  simp

theorem set_append (pre rest : List TaskHandle_t) (a b : TaskHandle_t) :
    (pre ++ a :: rest).set pre.length b = pre ++ b :: rest := by
  simp

/-- The loop of `pthread_cond_broadcast` started at the end of `pre` empties every
slot after `pre` and notifies the occupied ones in slot order. -/
theorem broadcastLoop_spec (pre rest : List TaskHandle_t) :
    (broadcastLoop rest.length pre.length (pre ++ rest)).1
        = pre ++ List.replicate rest.length NULL ∧
      notified (broadcastLoop rest.length pre.length (pre ++ rest)).2 = occupied rest := by
  induction rest generalizing pre with
  | nil => simp [broadcastLoop, notified, occupied]
  | cons a rest ih =>
    have hlen : (pre ++ [NULL]).length = pre.length + 1 := by simp
    have hlen' : (pre ++ [a]).length = pre.length + 1 := by simp
    simp only [List.length_cons]
    unfold broadcastLoop
    rw [rd_append]
    by_cases ha : a = NULL
    · subst ha
      have := ih (pre ++ [NULL])
      rw [hlen, List.append_assoc, List.singleton_append] at this
      simp only [ne_eq, not_true_eq_false, if_false]
      refine ⟨?_, ?_⟩
      · rw [this.1, List.replicate_succ]
        simp
      · have h2 := this.2
        simp only [notified] at h2 ⊢
        simp [h2, occupied_cons]
    · simp only [ne_eq, ha, not_false_eq_true, if_true]
      rw [set_append]
      have := ih (pre ++ [NULL])
      rw [hlen, List.append_assoc, List.singleton_append] at this
      refine ⟨?_, ?_⟩
      · rw [this.1, List.replicate_succ]
        simp
      · have h2 := this.2
        simp only [notified] at h2 ⊢
        simp [h2, occupied_cons, ha]

theorem syncCalls_append (s t : List Event) :
    syncCalls (s ++ t) = syncCalls s ++ syncCalls t := by
  simp [syncCalls, List.filter_append]

theorem zeroLoop_syncCalls (k i : Nat) (ws : List TaskHandle_t) :
    syncCalls (zeroLoop k i ws).2 = [] := by
  induction k generalizing i ws with
  | zero => simp [zeroLoop, syncCalls]
  | succ k ih =>
    have ih' := ih (i + 1) (ws.set i NULL)
    simp only [syncCalls] at ih' ⊢
    simp [zeroLoop, List.filter_cons, ih']

theorem registerLoop_syncCalls (cur : TaskHandle_t) (k i : Nat) (ws : List TaskHandle_t) :
    syncCalls (registerLoop cur k i ws).2.2 = [] := by
  induction k generalizing i with
  | zero => simp [registerLoop, syncCalls]
  | succ k ih =>
    have ih' := ih (i + 1)
    simp only [syncCalls] at ih' ⊢
    unfold registerLoop
    split
    · simp [List.filter_cons]
    · simp [List.filter_cons, ih']

theorem deregisterLoop_syncCalls (cur : TaskHandle_t) (k i : Nat) (ws : List TaskHandle_t) :
    syncCalls (deregisterLoop cur k i ws).2 = [] := by
  induction k generalizing i with
  | zero => simp [deregisterLoop, syncCalls]
  | succ k ih =>
    have ih' := ih (i + 1)
    simp only [syncCalls] at ih' ⊢
    unfold deregisterLoop
    split
    · simp [List.filter_cons]
    · simp [List.filter_cons, ih']

theorem prvInitializeStaticCond_no_capacity (env : Env) (c : pthread_cond_internal_t)
    (h : c.xIsInitialized = false) (hcap : c.tasksLenth ≤ 0) :
    prvInitializeStaticCond env c
      = ⟨false, c, [Event.vTaskSuspendAll, Event.xTaskResumeAll]⟩ := by
  have : ¬ c.tasksLenth > 0 := by omega
  simp [prvInitializeStaticCond, h, this]

theorem prvInitializeStaticCond_malloc_fails (env : Env) (c : pthread_cond_internal_t)
    (h : c.xIsInitialized = false) (hcap : c.tasksLenth > 0)
    (hm : env.pvPortMalloc c.tasksLenth.toNat = none) :
    prvInitializeStaticCond env c
      = ⟨false, { c with xTasksWaiting := none },
          [Event.vTaskSuspendAll, Event.pvPortMalloc c.tasksLenth.toNat false,
            Event.xTaskResumeAll]⟩ := by
  simp [prvInitializeStaticCond, h, hcap, hm]

theorem prvInitializeStaticCond_malloc_ok (env : Env) (c : pthread_cond_internal_t)
    (g : Nat → TaskHandle_t)
    (h : c.xIsInitialized = false) (hcap : c.tasksLenth > 0)
    (hm : env.pvPortMalloc c.tasksLenth.toNat = some g) :
    prvInitializeStaticCond env c
      = ⟨true,
          { c with
            xTasksWaiting :=
              some (zeroLoop c.tasksLenth.toNat 0 ((List.range c.tasksLenth.toNat).map g)).1,
            xIsInitialized := true },
          [Event.vTaskSuspendAll, Event.pvPortMalloc c.tasksLenth.toNat true]
            ++ (zeroLoop c.tasksLenth.toNat 0 ((List.range c.tasksLenth.toNat).map g)).2
            ++ [Event.xTaskResumeAll]⟩ := by
  simp [prvInitializeStaticCond, h, hcap, hm]

/-- The four ways through `prvInitializeStaticCond`. -/
theorem prvInitializeStaticCond_cases (env : Env) (c : pthread_cond_internal_t) :
    (c.xIsInitialized = true ∧ prvInitializeStaticCond env c = ⟨true, c, []⟩) ∨
    (c.xIsInitialized = false ∧ c.tasksLenth ≤ 0 ∧
      prvInitializeStaticCond env c
        = ⟨false, c, [Event.vTaskSuspendAll, Event.xTaskResumeAll]⟩) ∨
    (c.xIsInitialized = false ∧ c.tasksLenth > 0 ∧
      env.pvPortMalloc c.tasksLenth.toNat = none ∧
      prvInitializeStaticCond env c
        = ⟨false, { c with xTasksWaiting := none },
            [Event.vTaskSuspendAll, Event.pvPortMalloc c.tasksLenth.toNat false,
              Event.xTaskResumeAll]⟩) ∨
    (∃ g, c.xIsInitialized = false ∧ c.tasksLenth > 0 ∧
      env.pvPortMalloc c.tasksLenth.toNat = some g ∧
      prvInitializeStaticCond env c
        = ⟨true,
            { c with
              xTasksWaiting :=
                some (zeroLoop c.tasksLenth.toNat 0 ((List.range c.tasksLenth.toNat).map g)).1,
              xIsInitialized := true },
            [Event.vTaskSuspendAll, Event.pvPortMalloc c.tasksLenth.toNat true]
              ++ (zeroLoop c.tasksLenth.toNat 0 ((List.range c.tasksLenth.toNat).map g)).2
              ++ [Event.xTaskResumeAll]⟩) := by
  by_cases h : c.xIsInitialized = true
  · exact Or.inl ⟨h, prvInitializeStaticCond_of_initialized env c h⟩
  · have h' : c.xIsInitialized = false := by simpa using h
    by_cases hcap : c.tasksLenth > 0
    · rcases Option.eq_none_or_eq_some (env.pvPortMalloc c.tasksLenth.toNat) with hm | ⟨g, hm⟩
      · exact Or.inr (Or.inr (Or.inl
          ⟨h', hcap, hm, prvInitializeStaticCond_malloc_fails env c h' hcap hm⟩))
      · exact Or.inr (Or.inr (Or.inr
          ⟨g, h', hcap, hm, prvInitializeStaticCond_malloc_ok env c g h' hcap hm⟩))
    · exact Or.inr (Or.inl
        ⟨h', by omega, prvInitializeStaticCond_no_capacity env c h' (by omega)⟩)

theorem prvInitializeStaticCond_syncCalls (env : Env) (c : pthread_cond_internal_t) :
    syncCalls (prvInitializeStaticCond env c).trace = [] := by
  rcases prvInitializeStaticCond_cases env c with
    ⟨-, h⟩ | ⟨-, -, h⟩ | ⟨-, -, -, h⟩ | ⟨g, -, -, -, h⟩
  · rw [h]; rfl
  · rw [h]; rfl
  · rw [h]; rfl
  · rw [h]
    simp only [syncCalls_append, zeroLoop_syncCalls]
    rfl

theorem deadlineToDelay_syncCalls (env : Env) (abstime : Option timespec) :
    syncCalls (deadlineToDelay env abstime).2.2 = [] := by
  unfold deadlineToDelay
  cases abstime with
  | none => simp [syncCalls]
  | some a =>
    simp only
    split <;> simp [syncCalls]

/-- With no empty slot after `pre`, the registration loop writes nothing, leaves
`iSet` false and reads each slot once. -/
theorem registerLoop_full (cur : TaskHandle_t) (pre rest : List TaskHandle_t)
    (hfull : ∀ h, h ∈ rest → h ≠ NULL) :
    registerLoop cur rest.length pre.length (pre ++ rest)
      = (pre ++ rest, false,
          (List.range rest.length).map fun i => Event.slotRead (pre.length + i)) := by
  induction rest generalizing pre with
  | nil => simp [registerLoop]
  | cons a rest ih =>
    have ha : a ≠ NULL := hfull a (List.mem_cons_self _ _)
    have hlen : (pre ++ [a]).length = pre.length + 1 := by simp
    have := ih (pre ++ [a]) (fun h hm => hfull h (List.mem_cons_of_mem _ hm))
    rw [hlen, List.append_assoc, List.singleton_append] at this
    simp only [List.length_cons]
    unfold registerLoop
    rw [rd_append]
    simp only [ha, if_false, this, List.range_succ_eq_map, List.map_cons, List.map_map]
    simp only [Prod.mk.injEq, true_and, Nat.add_zero, List.cons.injEq]
    apply List.map_congr_left
    intro i _
    simp only [Function.comp, Nat.succ_eq_add_one]
    congr 1
    omega

/-- The registration loop on the slots after `pre`: the first empty slot receives
the caller and `iSet` tells whether there was one. -/
theorem registerLoop_spec (cur : TaskHandle_t) (pre rest : List TaskHandle_t) :
    (registerLoop cur rest.length pre.length (pre ++ rest)).1 = pre ++ putFirst cur rest ∧
    (registerLoop cur rest.length pre.length (pre ++ rest)).2.1 = decide (NULL ∈ rest) := by
  induction rest generalizing pre with
  | nil => simp [registerLoop, putFirst]
  | cons a rest ih =>
    have hlen : (pre ++ [a]).length = pre.length + 1 := by simp
    have := ih (pre ++ [a])
    rw [hlen, List.append_assoc, List.singleton_append] at this
    simp only [List.length_cons]
    unfold registerLoop
    rw [rd_append]
    by_cases ha : a = NULL
    · subst ha
      simp [putFirst]
    · have ha' : ¬ NULL = a := fun h => ha h.symm
      simp only [ha, if_false, this, putFirst, List.mem_cons, ha', false_or]
      simp

/-- The de-registration loop on the slots after `pre`: the first slot holding the
caller is emptied. -/
theorem deregisterLoop_spec (cur : TaskHandle_t) (pre rest : List TaskHandle_t) :
    (deregisterLoop cur rest.length pre.length (pre ++ rest)).1
      = pre ++ clearFirst cur rest := by
  induction rest generalizing pre with
  | nil => simp [deregisterLoop, clearFirst]
  | cons a rest ih =>
    have hlen : (pre ++ [a]).length = pre.length + 1 := by simp
    have := ih (pre ++ [a])
    rw [hlen, List.append_assoc, List.singleton_append] at this
    simp only [List.length_cons]
    unfold deregisterLoop
    rw [rd_append]
    by_cases ha : a = cur
    · subst ha
      simp [clearFirst]
    · simp only [ha, if_false, this, clearFirst]
      simp

theorem putFirst_length (cur : TaskHandle_t) (l : List TaskHandle_t) :
    (putFirst cur l).length = l.length := by
  induction l with
  | nil => rfl
  | cons a l ih =>
    unfold putFirst
    split <;> simp [ih]

/-- Registration adds one occurrence of the caller when there is an empty slot. -/
theorem putFirst_count (cur : TaskHandle_t) (l : List TaskHandle_t) (hcur : cur ≠ NULL)
    (hfree : NULL ∈ l) : (putFirst cur l).count cur = l.count cur + 1 := by
  induction l with
  | nil => simp at hfree
  | cons a l ih =>
    unfold putFirst
    by_cases ha : a = NULL
    · subst ha
      simp only [if_true, List.count_cons_self]
      rw [List.count_cons_of_ne hcur]
    · have hin : NULL ∈ l := by
        rcases List.mem_cons.mp hfree with h | h
        · exact absurd h.symm ha
        · exact h
      simp only [ha, if_false, List.count_cons, ih hin]
      omega

/-- De-registration removes one occurrence of the caller, if there is one. -/
theorem clearFirst_count (cur : TaskHandle_t) (l : List TaskHandle_t) (hcur : cur ≠ NULL) :
    (clearFirst cur l).count cur = l.count cur - 1 := by
  induction l with
  | nil => simp [clearFirst]
  | cons a l ih =>
    unfold clearFirst
    by_cases ha : a = cur
    · subst ha
      simp only [if_true, List.count_cons_self]
      rw [List.count_cons_of_ne hcur]
      omega
    · simp only [ha, if_false]
      rw [List.count_cons_of_ne (Ne.symm ha), List.count_cons_of_ne (Ne.symm ha), ih]

theorem mem_syncCalls (e : Event) (t : List Event) : e ∈ syncCalls t → e ∈ t := by
  intro h
  exact (List.mem_filter.mp h).1

theorem unlock_mem_syncCalls (m : Nat) (r : Int) (t : List Event)
    (h : Event.pthread_mutex_unlock m r ∈ t) : Event.pthread_mutex_unlock m r ∈ syncCalls t :=
  List.mem_filter.mpr ⟨h, rfl⟩

theorem lock_mem_syncCalls (m : Nat) (r : Int) (t : List Event)
    (h : Event.pthread_mutex_lock m r ∈ t) : Event.pthread_mutex_lock m r ∈ syncCalls t :=
  List.mem_filter.mpr ⟨h, rfl⟩

/-- The mutex calls and blocking waits of `pthread_cond_timedwait`: none, or a
failed unlock alone, or a successful unlock, the blocking wait and the re-lock. -/
theorem timedwait_syncCalls_cases (env : Env) (c : pthread_cond_internal_t) (mutex : Nat)
    (abstime : Option timespec) :
    syncCalls (pthread_cond_timedwait env c mutex abstime).trace = [] ∨
    (env.pthread_mutex_unlock mutex ≠ 0 ∧
      syncCalls (pthread_cond_timedwait env c mutex abstime).trace
        = [Event.pthread_mutex_unlock mutex (env.pthread_mutex_unlock mutex)]) ∨
    (env.pthread_mutex_unlock mutex = 0 ∧
      syncCalls (pthread_cond_timedwait env c mutex abstime).trace
        = [Event.pthread_mutex_unlock mutex 0,
           Event.xTaskNotifyWait (deadlineToDelay env abstime).2.1
             (env.xTaskNotifyWait (deadlineToDelay env abstime).2.1),
           Event.pthread_mutex_lock mutex (env.pthread_mutex_lock mutex)]) := by
  unfold pthread_cond_timedwait
  by_cases hret : (prvInitializeStaticCond env c).ret = false
  · left
    simp [hret, prvInitializeStaticCond_syncCalls]
  · by_cases hd : (deadlineToDelay env abstime).1 = 0
    · by_cases hreg : (registerLoop env.xTaskGetCurrentTaskHandle
          (prvInitializeStaticCond env c).cond.tasksLenth.toNat 0
          (slots (prvInitializeStaticCond env c).cond)).2.1 = false
      · left
        simp only [hret, hd, hreg, Bool.true_eq_false, if_true, if_false, syncCalls_append,
          prvInitializeStaticCond_syncCalls, deadlineToDelay_syncCalls, registerLoop_syncCalls]
        rfl
      · by_cases hu : env.pthread_mutex_unlock mutex = 0
        · right; right
          refine ⟨hu, ?_⟩
          simp only [hret, hd, hreg, hu, Bool.true_eq_false, if_true, if_false, syncCalls_append,
            prvInitializeStaticCond_syncCalls, deadlineToDelay_syncCalls,
            registerLoop_syncCalls, deregisterLoop_syncCalls]
          rfl
        · right; left
          refine ⟨hu, ?_⟩
          simp only [hret, hd, hreg, hu, Bool.true_eq_false, if_true, if_false, syncCalls_append,
            prvInitializeStaticCond_syncCalls, deadlineToDelay_syncCalls,
            registerLoop_syncCalls]
          rfl
    · left
      simp only [hret, hd, Bool.true_eq_false, if_true, if_false, syncCalls_append,
        prvInitializeStaticCond_syncCalls, deadlineToDelay_syncCalls]
      rfl

/-- Status and final state of `pthread_cond_timedwait` on an initialised condition
variable when the caller finds an empty slot and the mutex is released. -/
theorem timedwait_blocked (env : Env) (c : pthread_cond_internal_t) (ws : List TaskHandle_t)
    (mutex : Nat) (abstime : Option timespec) (hready : Ready c ws)
    (hconv : (deadlineToDelay env abstime).1 = 0) (hfree : NULL ∈ ws)
    (hunlock : env.pthread_mutex_unlock mutex = 0)
    (hlen : (env.otherTasks (putFirst env.xTaskGetCurrentTaskHandle ws)).length = ws.length) :
    (pthread_cond_timedwait env c mutex abstime).status
        = (if env.xTaskNotifyWait (deadlineToDelay env abstime).2.1 = true
            then env.pthread_mutex_lock mutex else ETIMEDOUT) ∧
    (pthread_cond_timedwait env c mutex abstime).cond
        = { c with xTasksWaiting := some (clearFirst env.xTaskGetCurrentTaskHandle
              (env.otherTasks (putFirst env.xTaskGetCurrentTaskHandle ws))) } := by
  obtain ⟨hinit, hws, hl⟩ := hready
  have hn : c.tasksLenth.toNat = ws.length := by omega
  have hreg := registerLoop_spec env.xTaskGetCurrentTaskHandle [] ws
  simp only [List.length_nil, List.nil_append] at hreg
  have hde := deregisterLoop_spec env.xTaskGetCurrentTaskHandle []
    (env.otherTasks (putFirst env.xTaskGetCurrentTaskHandle ws))
  simp only [List.length_nil, List.nil_append, hlen] at hde
  unfold pthread_cond_timedwait
  rw [prvInitializeStaticCond_of_initialized env c hinit]
  simp [slots, hws, hn, hconv, hreg, hfree, hunlock, hde, withSlots]

/-- The zeroing loop started at the end of `pre` empties every slot after `pre`. -/
theorem zeroLoop_spec (pre rest : List TaskHandle_t) :
    (zeroLoop rest.length pre.length (pre ++ rest)).1
      = pre ++ List.replicate rest.length NULL := by
  induction rest generalizing pre with
  | nil => simp [zeroLoop]
  | cons a rest ih =>
    have hlen : (pre ++ [NULL]).length = pre.length + 1 := by simp
    have := ih (pre ++ [NULL])
    rw [hlen, List.append_assoc, List.singleton_append] at this
    simp only [List.length_cons]
    unfold zeroLoop
    rw [set_append]
    simp only [this, List.replicate_succ]
    simp

/-- Whatever the fresh block holds, the zeroing loop over its `n` slots leaves `n`
empty slots. -/
theorem zeroLoop_block (n : Nat) (g : Nat → TaskHandle_t) :
    (zeroLoop n 0 ((List.range n).map g)).1 = List.replicate n NULL := by
  have := zeroLoop_spec [] ((List.range n).map g)
  simpa using this

/-- The outcome of as many signals as there are occupied slots, by induction on
that number: each signal removes a waiter of maximal priority. -/
theorem signalTimes_spec (env : Env)
    (c : pthread_cond_internal_t) (ws : List TaskHandle_t) (hready : Ready c ws) :
    (notified (signalTimes env (occupied ws).length c).2).Perm (occupied ws) ∧
    (notified (signalTimes env (occupied ws).length c).2).Pairwise
      (fun a b => env.uxTaskPriorityGet b ≤ env.uxTaskPriorityGet a) ∧
    (signalTimes env (occupied ws).length c).1
      = { c with xTasksWaiting := some (List.replicate ws.length NULL) } ∧
    occupied (slots (signalTimes env (occupied ws).length c).1) = [] := by
  generalize hk : (occupied ws).length = k
  induction k generalizing c ws with
  | zero =>
    have hnil : occupied ws = [] := List.length_eq_zero.mp hk
    have hrep := occupied_eq_nil ws hnil
    obtain ⟨-, hws, -⟩ := hready
    refine ⟨by simp [signalTimes, notified, hnil], by simp [signalTimes, notified], ?_, ?_⟩
    · simp only [signalTimes]
      rw [← hrep, ← hws]
    · simp [signalTimes, slots, hws, hnil]
  | succ k ih =>
    have hocc : ∃ h, h ∈ ws ∧ h ≠ NULL := by
      cases ho : occupied ws with
      | nil => simp [ho] at hk
      | cons a l =>
        have : a ∈ occupied ws := by simp [ho]
        exact ⟨a, (mem_occupied ws a).mp this⟩
    obtain ⟨j, hj, -, hne, hmax, -⟩ := signalScan_full env.uxTaskPriorityGet ws hocc
    have hperm := occupied_set_perm ws j hne
    have hk' : (occupied (ws.set j NULL)).length = k := by
      have := hperm.length_eq
      simp only [List.length_cons] at this
      omega
    have hsig := pthread_cond_signal_ready env c ws hready
    rw [hj] at hsig
    have hnot : notified (pthread_cond_signal env c).trace = [rd ws j] := by
      rw [hsig]
      have hs := signalScan_notified env.uxTaskPriorityGet ws ws.length 0 none
      simp only [notified] at hs ⊢
      simp [List.filterMap_append, hs]
    have hcond : (pthread_cond_signal env c).cond
        = { c with xTasksWaiting := some (ws.set j NULL) } := by rw [hsig]
    obtain ⟨ih1, ih2, ih3, ih4⟩ :=
      ih { c with xTasksWaiting := some (ws.set j NULL) } (ws.set j NULL)
        (ready_set c ws j NULL hready) hk'
    simp only [signalTimes, notified_append, hnot, hcond, List.singleton_append]
    refine ⟨(ih1.cons (rd ws j)).trans hperm.symm, ?_, ?_, ih4⟩
    · refine List.Pairwise.cons ?_ ih2
      intro b hb
      have hb' : b ∈ occupied ws := hperm.symm.subset (List.mem_cons_of_mem _ (ih1.subset hb))
      obtain ⟨hbm, hbn⟩ := (mem_occupied ws b).mp hb'
      obtain ⟨i, hi, hr⟩ := mem_rd ws b hbm
      have := hmax i hi (hr ▸ hbn)
      rwa [hr] at this
    · rw [ih3]
      simp


theorem zeroLoop_loopEvent (k i : Nat) (ws : List TaskHandle_t) :
    ∀ e, e ∈ (zeroLoop k i ws).2 → loopEvent e = true := by
  induction k generalizing i ws with
  | zero => simp [zeroLoop]
  | succ k ih =>
    intro e he
    simp only [zeroLoop, List.mem_cons] at he
    rcases he with rfl | he
    · rfl
    · exact ih _ _ e he

theorem broadcastLoop_loopEvent (k i : Nat) (ws : List TaskHandle_t) :
    ∀ e, e ∈ (broadcastLoop k i ws).2 → loopEvent e = true := by
  induction k generalizing i ws with
  | zero => simp [broadcastLoop]
  | succ k ih =>
    intro e he
    unfold broadcastLoop at he
    split at he
    · simp only [List.mem_cons] at he
      rcases he with rfl | rfl | rfl | rfl | he
      · rfl
      · rfl
      · rfl
      · rfl
      · exact ih _ _ e he
    · simp only [List.mem_cons] at he
      rcases he with rfl | he
      · rfl
      · exact ih _ _ e he

theorem signalScan_loopEvent (prio : TaskHandle_t → Nat) (ws : List TaskHandle_t) (k i : Nat)
    (p : Option Nat) : ∀ e, e ∈ (signalScan prio ws k i p).2 → loopEvent e = true := by
  induction k generalizing i p with
  | zero => simp [signalScan]
  | succ k ih =>
    intro e he
    unfold signalScan at he
    split at he
    · cases p with
      | none =>
        simp only [List.mem_cons] at he
        rcases he with rfl | he
        · rfl
        · exact ih _ _ e he
      | some j =>
        simp only at he
        split at he
        · simp only [List.mem_cons] at he
          rcases he with rfl | rfl | rfl | rfl | rfl | he
          · rfl
          · rfl
          · rfl
          · rfl
          · rfl
          · exact ih _ _ e he
        · simp only [List.mem_cons] at he
          rcases he with rfl | rfl | rfl | rfl | rfl | he
          · rfl
          · rfl
          · rfl
          · rfl
          · rfl
          · exact ih _ _ e he
    · simp only [List.mem_cons] at he
      rcases he with rfl | he
      · rfl
      · exact ih _ _ e he

theorem registerLoop_loopEvent (cur : TaskHandle_t) (k i : Nat) (ws : List TaskHandle_t) :
    ∀ e, e ∈ (registerLoop cur k i ws).2.2 → loopEvent e = true := by
  induction k generalizing i with
  | zero => simp [registerLoop]
  | succ k ih =>
    intro e he
    unfold registerLoop at he
    split at he
    · simp only [List.mem_cons, List.mem_singleton, List.not_mem_nil, or_false] at he
      rcases he with rfl | rfl | rfl
      · rfl
      · rfl
      · rfl
    · simp only [List.mem_cons] at he
      rcases he with rfl | he
      · rfl
      · exact ih _ e he

theorem deregisterLoop_loopEvent (cur : TaskHandle_t) (k i : Nat) (ws : List TaskHandle_t) :
    ∀ e, e ∈ (deregisterLoop cur k i ws).2 → loopEvent e = true := by
  induction k generalizing i with
  | zero => simp [deregisterLoop]
  | succ k ih =>
    intro e he
    unfold deregisterLoop at he
    split at he
    · simp only [List.mem_cons, List.mem_singleton, List.not_mem_nil, or_false] at he
      rcases he with rfl | rfl | rfl
      · rfl
      · rfl
      · rfl
    · simp only [List.mem_cons] at he
      rcases he with rfl | rfl | he
      · rfl
      · rfl
      · exact ih _ e he

/-- A filter that rejects the events of the loops finds nothing in a loop's trace. -/
theorem filter_loop_trace (p : Event → Bool) (hp : ∀ e, loopEvent e = true → p e = false)
    (t : List Event) (ht : ∀ e, e ∈ t → loopEvent e = true) : t.filter p = [] := by
  apply List.filter_eq_nil_iff.mpr
  intro e he
  simp [hp e (ht e he)]

theorem initSteps_append (s t : List Event) :
    initSteps (s ++ t) = initSteps s ++ initSteps t := by
  simp [initSteps, List.filter_append]

theorem clockReads_append (s t : List Event) :
    clockReads (s ++ t) = clockReads s ++ clockReads t := by
  simp [clockReads, List.filter_append]

theorem waitDelays_append (s t : List Event) :
    waitDelays (s ++ t) = waitDelays s ++ waitDelays t := by
  simp [waitDelays, List.filterMap_append]

theorem initSteps_loop (t : List Event) (ht : ∀ e, e ∈ t → loopEvent e = true) :
    initSteps t = [] := by
  apply filter_loop_trace _ _ t ht
  intro e he
  cases e <;> simp_all [loopEvent]

theorem clockReads_loop (t : List Event) (ht : ∀ e, e ∈ t → loopEvent e = true) :
    clockReads t = [] := by
  apply filter_loop_trace _ _ t ht
  intro e he
  cases e <;> simp_all [loopEvent]

theorem waitDelays_loop (t : List Event) (ht : ∀ e, e ∈ t → loopEvent e = true) :
    waitDelays t = [] := by
  apply List.filterMap_eq_nil_iff.mpr
  intro e he
  have := ht e he
  cases e <;> simp_all [loopEvent]

/-- The shape of every execution of `pthread_cond_timedwait`: its status and its
trace, path by path; `reg` and `de` are the traces of the registration and
de-registration loops. -/
theorem timedwait_shape (env : Env) (c : pthread_cond_internal_t) (mutex : Nat)
    (abstime : Option timespec) :
    ∃ reg de : List Event,
      (∀ e, e ∈ reg → loopEvent e = true) ∧ (∀ e, e ∈ de → loopEvent e = true) ∧
      (((pthread_cond_timedwait env c mutex abstime).trace
            = (prvInitializeStaticCond env c).trace ∧
          (pthread_cond_timedwait env c mutex abstime).status = ENOMEM ∧
          (prvInitializeStaticCond env c).ret = false) ∨
        ((pthread_cond_timedwait env c mutex abstime).trace
            = (prvInitializeStaticCond env c).trace ++ (deadlineToDelay env abstime).2.2 ∧
          (pthread_cond_timedwait env c mutex abstime).status
            = (deadlineToDelay env abstime).1 ∧
          (deadlineToDelay env abstime).1 ≠ 0) ∨
        ((pthread_cond_timedwait env c mutex abstime).trace
            = (prvInitializeStaticCond env c).trace ++ (deadlineToDelay env abstime).2.2
                ++ [Event.taskENTER_CRITICAL] ++ reg ++ [Event.taskEXIT_CRITICAL] ∧
          (pthread_cond_timedwait env c mutex abstime).status = ENOMEM ∧
          (deadlineToDelay env abstime).1 = 0) ∨
        ((pthread_cond_timedwait env c mutex abstime).trace
            = (prvInitializeStaticCond env c).trace ++ (deadlineToDelay env abstime).2.2
                ++ [Event.taskENTER_CRITICAL] ++ reg ++ [Event.taskEXIT_CRITICAL]
                ++ [Event.pthread_mutex_unlock mutex (env.pthread_mutex_unlock mutex)] ∧
          (pthread_cond_timedwait env c mutex abstime).status
            = env.pthread_mutex_unlock mutex ∧
          env.pthread_mutex_unlock mutex ≠ 0 ∧
          (deadlineToDelay env abstime).1 = 0) ∨
        ((pthread_cond_timedwait env c mutex abstime).trace
            = (prvInitializeStaticCond env c).trace ++ (deadlineToDelay env abstime).2.2
                ++ [Event.taskENTER_CRITICAL] ++ reg ++ [Event.taskEXIT_CRITICAL]
                ++ [Event.pthread_mutex_unlock mutex 0,
                    Event.xTaskNotifyWait (deadlineToDelay env abstime).2.1
                      (env.xTaskNotifyWait (deadlineToDelay env abstime).2.1),
                    Event.pthread_mutex_lock mutex (env.pthread_mutex_lock mutex),
                    Event.taskENTER_CRITICAL] ++ de ++ [Event.taskEXIT_CRITICAL] ∧
          (pthread_cond_timedwait env c mutex abstime).status
            = (if env.xTaskNotifyWait (deadlineToDelay env abstime).2.1 = true
                then env.pthread_mutex_lock mutex else ETIMEDOUT) ∧
          env.pthread_mutex_unlock mutex = 0 ∧
          (deadlineToDelay env abstime).1 = 0)) := by
  refine ⟨(registerLoop env.xTaskGetCurrentTaskHandle
      (prvInitializeStaticCond env c).cond.tasksLenth.toNat 0
      (slots (prvInitializeStaticCond env c).cond)).2.2,
    (deregisterLoop env.xTaskGetCurrentTaskHandle
      (prvInitializeStaticCond env c).cond.tasksLenth.toNat 0
      (env.otherTasks (registerLoop env.xTaskGetCurrentTaskHandle
        (prvInitializeStaticCond env c).cond.tasksLenth.toNat 0
        (slots (prvInitializeStaticCond env c).cond)).1)).2,
    registerLoop_loopEvent _ _ _ _, deregisterLoop_loopEvent _ _ _ _, ?_⟩
  unfold pthread_cond_timedwait
  by_cases hret : (prvInitializeStaticCond env c).ret = false
  · left
    simp [hret]
  · right
    by_cases hd : (deadlineToDelay env abstime).1 = 0
    · right
      by_cases hreg : (registerLoop env.xTaskGetCurrentTaskHandle
          (prvInitializeStaticCond env c).cond.tasksLenth.toNat 0
          (slots (prvInitializeStaticCond env c).cond)).2.1 = false
      · left
        simp [hret, hd, hreg]
      · right
        by_cases hu : env.pthread_mutex_unlock mutex = 0
        · right
          simp [hret, hd, hreg, hu]
        · left
          simp [hret, hd, hreg, hu]
    · left
      simp [hret, hd]

theorem deadlineToDelay_initSteps (env : Env) (abstime : Option timespec) :
    initSteps (deadlineToDelay env abstime).2.2 = [] := by
  unfold deadlineToDelay
  cases abstime with
  | none => simp [initSteps]
  | some a =>
    simp only
    split <;> simp [initSteps]

theorem deadlineToDelay_waitDelays (env : Env) (abstime : Option timespec) :
    waitDelays (deadlineToDelay env abstime).2.2 = [] := by
  unfold deadlineToDelay
  cases abstime with
  | none => simp [waitDelays]
  | some a =>
    simp only
    split <;> simp [waitDelays]

theorem prvInitializeStaticCond_clockReads (env : Env) (c : pthread_cond_internal_t) :
    clockReads (prvInitializeStaticCond env c).trace = [] := by
  rcases prvInitializeStaticCond_cases env c with
    ⟨-, h⟩ | ⟨-, -, h⟩ | ⟨-, -, -, h⟩ | ⟨g, -, -, -, h⟩
  · rw [h]; rfl
  · rw [h]; rfl
  · rw [h]; rfl
  · rw [h]
    simp only [clockReads_append, clockReads_loop _ (zeroLoop_loopEvent _ _ _)]
    rfl

theorem prvInitializeStaticCond_waitDelays (env : Env) (c : pthread_cond_internal_t) :
    waitDelays (prvInitializeStaticCond env c).trace = [] := by
  rcases prvInitializeStaticCond_cases env c with
    ⟨-, h⟩ | ⟨-, -, h⟩ | ⟨-, -, -, h⟩ | ⟨g, -, -, -, h⟩
  · rw [h]; rfl
  · rw [h]; rfl
  · rw [h]; rfl
  · rw [h]
    simp only [waitDelays_append, waitDelays_loop _ (zeroLoop_loopEvent _ _ _)]
    rfl

theorem rd_set (ws : List TaskHandle_t) (i j : Nat) (a : TaskHandle_t) :
    rd (ws.set j a) i = if j = i ∧ j < ws.length then a else rd ws i := by
  unfold rd
  rw [List.getElem?_set]
  by_cases hji : j = i
  · by_cases hlt : j < ws.length
    · simp [hji, hlt, hji ▸ hlt]
    · have : ws[i]? = none := List.getElem?_eq_none (by omega)
      simp [hji, hji ▸ hlt, this]
  · simp [hji]

theorem rd_putFirst (cur : TaskHandle_t) (l : List TaskHandle_t) (i : Nat)
    (h : rd l i ≠ NULL) : rd (putFirst cur l) i = rd l i := by
  induction l generalizing i with
  | nil => rfl
  | cons a l ih =>
    unfold putFirst
    cases i with
    | zero =>
      rw [rd_cons_zero] at h
      simp [h, rd_cons_zero]
    | succ i =>
      rw [rd_cons_succ] at h
      by_cases ha : a = NULL
      · simp [ha, rd_cons_succ]
      · simp [ha, rd_cons_succ, ih i h]

theorem rd_clearFirst (cur : TaskHandle_t) (l : List TaskHandle_t) (i : Nat)
    (h : rd l i ≠ cur) : rd (clearFirst cur l) i = rd l i := by
  induction l generalizing i with
  | nil => rfl
  | cons a l ih =>
    unfold clearFirst
    cases i with
    | zero =>
      rw [rd_cons_zero] at h
      simp [h, rd_cons_zero]
    | succ i =>
      rw [rd_cons_succ] at h
      by_cases ha : a = cur
      · simp [ha, rd_cons_succ]
      · simp [ha, rd_cons_succ, ih i h]

/-- Status and final state of `pthread_cond_timedwait` on an initialised condition
variable, path by path. -/
theorem timedwait_ready (env : Env) (c : pthread_cond_internal_t) (ws : List TaskHandle_t)
    (mutex : Nat) (abstime : Option timespec) (hready : Ready c ws) :
    ((deadlineToDelay env abstime).1 ≠ 0 →
      (pthread_cond_timedwait env c mutex abstime).status = (deadlineToDelay env abstime).1 ∧
      (pthread_cond_timedwait env c mutex abstime).cond = c) ∧
    ((deadlineToDelay env abstime).1 = 0 → NULL ∉ ws →
      (pthread_cond_timedwait env c mutex abstime).status = ENOMEM ∧
      (pthread_cond_timedwait env c mutex abstime).cond = c) ∧
    ((deadlineToDelay env abstime).1 = 0 → NULL ∈ ws → env.pthread_mutex_unlock mutex ≠ 0 →
      (pthread_cond_timedwait env c mutex abstime).status = env.pthread_mutex_unlock mutex ∧
      (pthread_cond_timedwait env c mutex abstime).cond
        = { c with xTasksWaiting := some (putFirst env.xTaskGetCurrentTaskHandle ws) }) ∧
    ((deadlineToDelay env abstime).1 = 0 → NULL ∈ ws → env.pthread_mutex_unlock mutex = 0 →
      (pthread_cond_timedwait env c mutex abstime).status
        = (if env.xTaskNotifyWait (deadlineToDelay env abstime).2.1 = true
            then env.pthread_mutex_lock mutex else ETIMEDOUT) ∧
      (pthread_cond_timedwait env c mutex abstime).cond
        = { c with xTasksWaiting := some (deregisterLoop env.xTaskGetCurrentTaskHandle
              ws.length 0
              (env.otherTasks (putFirst env.xTaskGetCurrentTaskHandle ws))).1 }) := by
  obtain ⟨hinit, hws, hl⟩ := hready
  have hn : c.tasksLenth.toNat = ws.length := by omega
  have hreg := registerLoop_spec env.xTaskGetCurrentTaskHandle [] ws
  simp only [List.length_nil, List.nil_append] at hreg
  refine ⟨?_, ?_, ?_, ?_⟩
  · intro hd
    unfold pthread_cond_timedwait
    rw [prvInitializeStaticCond_of_initialized env c hinit]
    simp [hd]
  · intro hd hfull
    unfold pthread_cond_timedwait
    rw [prvInitializeStaticCond_of_initialized env c hinit]
    simp [slots, hws, hn, hd, hreg, hfull]
  · intro hd hfree hu
    unfold pthread_cond_timedwait
    rw [prvInitializeStaticCond_of_initialized env c hinit]
    simp [slots, hws, hn, hd, hreg, hfree, hu, withSlots]
  · intro hd hfree hu
    unfold pthread_cond_timedwait
    rw [prvInitializeStaticCond_of_initialized env c hinit]
    simp [slots, hws, hn, hd, hreg, hfree, hu, withSlots]

/-- State and notifications of `pthread_cond_broadcast` on an initialised
condition variable. -/
theorem pthread_cond_broadcast_ready (env : Env) (c : pthread_cond_internal_t)
    (ws : List TaskHandle_t) (hready : Ready c ws) :
    (pthread_cond_broadcast env c).status = 0 ∧
    (pthread_cond_broadcast env c).cond
      = { c with xTasksWaiting := some (List.replicate ws.length NULL) } ∧
    notified (pthread_cond_broadcast env c).trace = occupied ws := by
  obtain ⟨hinit, hws, hlen⟩ := hready
  have hn : c.tasksLenth.toNat = ws.length := by omega
  have hloop := broadcastLoop_spec [] ws
  simp only [List.length_nil, List.nil_append] at hloop
  refine ⟨?_, ?_, ?_⟩
  · unfold pthread_cond_broadcast
    rw [prvInitializeStaticCond_of_initialized env c hinit]
    simp
  · unfold pthread_cond_broadcast
    rw [prvInitializeStaticCond_of_initialized env c hinit]
    simp [slots, hws, hn, withSlots, hloop.1]
  · unfold pthread_cond_broadcast
    rw [prvInitializeStaticCond_of_initialized env c hinit]
    simp only [Bool.true_eq_false, if_false, slots, hws, Option.getD_some, hn,
      notified_append, hloop.2]
    simp [notified]

theorem rd_replicate_NULL (n i : Nat) : rd (List.replicate n NULL) i = NULL := by
  unfold rd
  by_cases hi : i < n
  · simp [List.getElem?_replicate, hi]
  · simp [List.getElem?_replicate, hi]

theorem signal_initSteps (env : Env) (c : pthread_cond_internal_t)
    (hinit : c.xIsInitialized = true) : initSteps (pthread_cond_signal env c).trace = [] := by
  unfold pthread_cond_signal
  rw [prvInitializeStaticCond_of_initialized env c hinit]
  simp only [Bool.true_eq_false, if_false]
  split
  · simp only [initSteps_append, initSteps_loop _ (signalScan_loopEvent _ _ _ _ _)]
    rfl
  · simp only [initSteps_append, initSteps_loop _ (signalScan_loopEvent _ _ _ _ _)]
    rfl

theorem broadcast_initSteps (env : Env) (c : pthread_cond_internal_t)
    (hinit : c.xIsInitialized = true) :
    initSteps (pthread_cond_broadcast env c).trace = [] := by
  unfold pthread_cond_broadcast
  rw [prvInitializeStaticCond_of_initialized env c hinit]
  simp only [Bool.true_eq_false, if_false, initSteps_append,
    initSteps_loop _ (broadcastLoop_loopEvent _ _ _)]
  rfl

theorem timedwait_initSteps (env : Env) (c : pthread_cond_internal_t) (mutex : Nat)
    (abstime : Option timespec) (hinit : c.xIsInitialized = true) :
    initSteps (pthread_cond_timedwait env c mutex abstime).trace = [] := by
  obtain ⟨reg, de, hreg, hde, h⟩ := timedwait_shape env c mutex abstime
  rw [prvInitializeStaticCond_of_initialized env c hinit] at h
  rcases h with ⟨h, -⟩ | ⟨h, -⟩ | ⟨h, -⟩ | ⟨h, -⟩ | ⟨h, -⟩
  · rw [h]; rfl
  · rw [h]
    simp only [initSteps_append, deadlineToDelay_initSteps]
    rfl
  · rw [h]
    simp only [initSteps_append, deadlineToDelay_initSteps, initSteps_loop _ hreg]
    rfl
  · rw [h]
    simp only [initSteps_append, deadlineToDelay_initSteps, initSteps_loop _ hreg]
    rfl
  · rw [h]
    simp only [initSteps_append, deadlineToDelay_initSteps, initSteps_loop _ hreg,
      initSteps_loop _ hde]
    rfl

theorem prvInitializeStaticCond_ret_true (env : Env) (c : pthread_cond_internal_t)
    (h : (prvInitializeStaticCond env c).ret = true) :
    (prvInitializeStaticCond env c).cond.xIsInitialized = true := by
  rcases prvInitializeStaticCond_cases env c with
    ⟨h1, e⟩ | ⟨-, -, e⟩ | ⟨-, -, -, e⟩ | ⟨g, -, -, -, e⟩
  · rw [e]; exact h1
  · rw [e] at h; simp at h
  · rw [e] at h; simp at h
  · rw [e]

/-- Without interference a wait leaves the slots of the other tasks as they are. -/
theorem timedwait_keeps_other_slots (env : Env) (c : pthread_cond_internal_t)
    (ws : List TaskHandle_t) (mutex : Nat) (abstime : Option timespec) (hready : Ready c ws)
    (hquiet : ∀ l, env.otherTasks l = l) (i : Nat) (hocc : rd ws i ≠ NULL)
    (hother : rd ws i ≠ env.xTaskGetCurrentTaskHandle) :
    rd (slots (pthread_cond_timedwait env c mutex abstime).cond) i = rd ws i := by
  obtain ⟨h1, h2, h3, h4⟩ := timedwait_ready env c ws mutex abstime hready
  have hws : slots c = ws := by simp [slots, hready.2.1]
  by_cases hd : (deadlineToDelay env abstime).1 = 0
  · by_cases hfree : NULL ∈ ws
    · by_cases hu : env.pthread_mutex_unlock mutex = 0
      · rw [(h4 hd hfree hu).2, hquiet]
        have hde := deregisterLoop_spec env.xTaskGetCurrentTaskHandle []
          (putFirst env.xTaskGetCurrentTaskHandle ws)
        simp only [List.length_nil, List.nil_append, putFirst_length] at hde
        simp only [slots, Option.getD_some, hde]
        rw [rd_clearFirst, rd_putFirst _ _ _ hocc]
        rw [rd_putFirst _ _ _ hocc]
        exact hother
      · rw [(h3 hd hfree hu).2]
        simp only [slots, Option.getD_some]
        exact rd_putFirst _ _ _ hocc
    · rw [(h2 hd hfree).2, hws]
  · rw [(h1 hd).2, hws]

theorem timedwait_clockReads_none (env : Env) (c : pthread_cond_internal_t) (mutex : Nat) :
    clockReads (pthread_cond_timedwait env c mutex none).trace = [] := by
  obtain ⟨reg, de, hreg, hde, h⟩ := timedwait_shape env c mutex none
  have hd : (deadlineToDelay env none).2.2 = [] := rfl
  rw [hd] at h
  rcases h with ⟨h, -⟩ | ⟨h, -⟩ | ⟨h, -⟩ | ⟨h, -⟩ | ⟨h, -⟩
  · rw [h]; exact prvInitializeStaticCond_clockReads env c
  · rw [h]
    simp only [clockReads_append, prvInitializeStaticCond_clockReads]
    rfl
  · rw [h]
    simp only [clockReads_append, prvInitializeStaticCond_clockReads, clockReads_loop _ hreg]
    rfl
  · rw [h]
    simp only [clockReads_append, prvInitializeStaticCond_clockReads, clockReads_loop _ hreg]
    rfl
  · rw [h]
    simp only [clockReads_append, prvInitializeStaticCond_clockReads, clockReads_loop _ hreg,
      clockReads_loop _ hde]
    rfl

theorem timedwait_waitDelays (env : Env) (c : pthread_cond_internal_t) (mutex : Nat)
    (abstime : Option timespec) :
    waitDelays (pthread_cond_timedwait env c mutex abstime).trace = [] ∨
    waitDelays (pthread_cond_timedwait env c mutex abstime).trace
      = [(deadlineToDelay env abstime).2.1] := by
  obtain ⟨reg, de, hreg, hde, h⟩ := timedwait_shape env c mutex abstime
  rcases h with ⟨h, -⟩ | ⟨h, -⟩ | ⟨h, -⟩ | ⟨h, -⟩ | ⟨h, -⟩
  · left
    rw [h]; exact prvInitializeStaticCond_waitDelays env c
  · left
    rw [h]
    simp only [waitDelays_append, prvInitializeStaticCond_waitDelays,
      deadlineToDelay_waitDelays]
    rfl
  · left
    rw [h]
    simp only [waitDelays_append, prvInitializeStaticCond_waitDelays,
      deadlineToDelay_waitDelays, waitDelays_loop _ hreg]
    rfl
  · left
    rw [h]
    simp only [waitDelays_append, prvInitializeStaticCond_waitDelays,
      deadlineToDelay_waitDelays, waitDelays_loop _ hreg]
    rfl
  · right
    rw [h]
    simp only [waitDelays_append, prvInitializeStaticCond_waitDelays,
      deadlineToDelay_waitDelays, waitDelays_loop _ hreg, waitDelays_loop _ hde]
    rfl

/-- The registration loop stops at the lowest empty slot from `i` on, writes the
caller there and nowhere else. -/
theorem registerLoop_first_empty (cur : TaskHandle_t) (ws : List TaskHandle_t) (k i : Nat)
    (h : ∃ m, i ≤ m ∧ m < i + k ∧ rd ws m = NULL) :
    ∃ j A, i ≤ j ∧ j < i + k ∧ rd ws j = NULL ∧ (∀ m, i ≤ m → m < j → rd ws m ≠ NULL) ∧
      registerLoop cur k i ws = (ws.set j cur, true, A ++ [Event.slotWrite j cur]) ∧
      slotAccesses A = (List.range' i (j + 1 - i)).map Event.slotRead := by
  induction k generalizing i with
  | zero =>
    obtain ⟨m, h1, h2, -⟩ := h
    omega
  | succ k ih =>
    by_cases hi : rd ws i = NULL
    · refine ⟨i, [Event.slotRead i, Event.xTaskGetCurrentTaskHandle], le_refl _, by omega, hi,
        ?_, ?_, ?_⟩
      · intro m h1 h2
        omega
      · simp [registerLoop, hi]
      · have : i + 1 - i = 1 := by omega
        simp [slotAccesses, this]
    · obtain ⟨m, h1, h2, h3⟩ := h
      have hne : m ≠ i := fun e => hi (e ▸ h3)
      obtain ⟨j, A, hj1, hj2, hj3, hj4, hj5, hj6⟩ := ih (i + 1) ⟨m, by omega, by omega, h3⟩
      refine ⟨j, Event.slotRead i :: A, by omega, by omega, hj3, ?_, ?_, ?_⟩
      · intro m' h1' h2'
        by_cases hm : m' = i
        · rw [hm]; exact hi
        · exact hj4 m' (by omega) h2'
      · unfold registerLoop
        simp [hi, hj5]
      · have hlen : j + 1 - i = (j + 1 - (i + 1)) + 1 := by omega
        rw [hlen, List.range'_succ]
        simp only [List.map_cons]
        rw [← hj6]
        simp [slotAccesses, List.filter_cons]

theorem occupied_set_length (ws : List TaskHandle_t) (j : Nat) (a : TaskHandle_t)
    (hj : j < ws.length) (hemp : rd ws j = NULL) (ha : a ≠ NULL) :
    (occupied (ws.set j a)).length = (occupied ws).length + 1 := by
  induction ws generalizing j with
  | nil => simp at hj
  | cons b l ih =>
    cases j with
    | zero =>
      rw [rd_cons_zero] at hemp
      simp [occupied_cons, hemp, ha]
    | succ j =>
      rw [rd_cons_succ] at hemp
      have := ih j (by simpa using hj) hemp
      rw [List.set_cons_succ, occupied_cons, occupied_cons]
      by_cases hb : b = NULL
      · simp [hb, this]
      · simp [hb, this]

/-- What `pthread_cond_signal` does on an initialised condition variable with a
waiter: the slot it picks, the notification and the new state. -/
theorem pthread_cond_signal_pick (env : Env) (c : pthread_cond_internal_t)
    (ws : List TaskHandle_t) (hready : Ready c ws) (hocc : ∃ h, h ∈ ws ∧ h ≠ NULL) :
    ∃ j, ScanInv env.uxTaskPriorityGet ws ws.length (some j) ∧
      (pthread_cond_signal env c).status = 0 ∧
      (pthread_cond_signal env c).cond = { c with xTasksWaiting := some (ws.set j NULL) } ∧
      notified (pthread_cond_signal env c).trace = [rd ws j] ∧
      Event.slotWrite j NULL ∈ (pthread_cond_signal env c).trace := by
  obtain ⟨j, hj, hinv⟩ := signalScan_full env.uxTaskPriorityGet ws hocc
  have hsig := pthread_cond_signal_ready env c ws hready
  rw [hj] at hsig
  refine ⟨j, hinv, by rw [hsig], by rw [hsig], ?_, ?_⟩
  · rw [hsig]
    have hs := signalScan_notified env.uxTaskPriorityGet ws ws.length 0 none
    simp only [notified_append, hs]
    rfl
  · rw [hsig]
    simp

theorem slotAccesses_append (s t : List Event) :
    slotAccesses (s ++ t) = slotAccesses s ++ slotAccesses t := by
  simp [slotAccesses, List.filter_append]

theorem deadlineToDelay_slotAccesses (env : Env) (abstime : Option timespec) :
    slotAccesses (deadlineToDelay env abstime).2.2 = [] := by
  unfold deadlineToDelay
  cases abstime with
  | none => simp [slotAccesses]
  | some a =>
    simp only
    split <;> simp [slotAccesses]

/-- The trace of `pthread_cond_timedwait` on an initialised condition variable
when the caller is registered and the unlock fails: it ends with the unlock. -/
theorem timedwait_failed_unlock_trace (env : Env) (c : pthread_cond_internal_t)
    (ws : List TaskHandle_t) (mutex : Nat) (abstime : Option timespec) (hready : Ready c ws)
    (hconv : (deadlineToDelay env abstime).1 = 0) (hfree : NULL ∈ ws)
    (hunlock : env.pthread_mutex_unlock mutex ≠ 0) :
    (pthread_cond_timedwait env c mutex abstime).trace
      = (deadlineToDelay env abstime).2.2 ++ [Event.taskENTER_CRITICAL]
          ++ (registerLoop env.xTaskGetCurrentTaskHandle ws.length 0 ws).2.2
          ++ [Event.taskEXIT_CRITICAL]
          ++ [Event.pthread_mutex_unlock mutex (env.pthread_mutex_unlock mutex)] := by
  obtain ⟨hinit, hws, hl⟩ := hready
  have hn : c.tasksLenth.toNat = ws.length := by omega
  have hreg := registerLoop_spec env.xTaskGetCurrentTaskHandle [] ws
  simp only [List.length_nil, List.nil_append] at hreg
  unfold pthread_cond_timedwait
  rw [prvInitializeStaticCond_of_initialized env c hinit]
  simp [slots, hws, hn, hconv, hreg, hfree, hunlock]

theorem mem_waitDelays (d : TickType_t) (r : Bool) (t : List Event)
    (h : Event.xTaskNotifyWait d r ∈ t) : d ∈ waitDelays t := by
  unfold waitDelays
  exact List.mem_filterMap.mpr ⟨_, h, rfl⟩

/-- An execution of `pthread_cond_timedwait` either never calls the blocking wait,
or calls it once, between the successful unlock and the re-lock, and its status
is decided by the result of that wait. -/
theorem timedwait_wait_or_not (env : Env) (c : pthread_cond_internal_t) (mutex : Nat)
    (abstime : Option timespec) :
    waitDelays (pthread_cond_timedwait env c mutex abstime).trace = [] ∨
    ∃ pre post,
      (pthread_cond_timedwait env c mutex abstime).trace
        = pre ++ [Event.pthread_mutex_unlock mutex 0,
                  Event.xTaskNotifyWait (deadlineToDelay env abstime).2.1
                    (env.xTaskNotifyWait (deadlineToDelay env abstime).2.1),
                  Event.pthread_mutex_lock mutex (env.pthread_mutex_lock mutex),
                  Event.taskENTER_CRITICAL] ++ post ∧
      waitDelays pre = [] ∧ waitDelays post = [] ∧
      (pthread_cond_timedwait env c mutex abstime).status
        = (if env.xTaskNotifyWait (deadlineToDelay env abstime).2.1 = true
            then env.pthread_mutex_lock mutex else ETIMEDOUT) := by
  obtain ⟨reg, de, hreg, hde, h⟩ := timedwait_shape env c mutex abstime
  rcases h with ⟨h, -⟩ | ⟨h, -⟩ | ⟨h, -⟩ | ⟨h, -⟩ | ⟨h, hst, -⟩
  · left
    rw [h]; exact prvInitializeStaticCond_waitDelays env c
  · left
    rw [h]
    simp only [waitDelays_append, prvInitializeStaticCond_waitDelays,
      deadlineToDelay_waitDelays]
    rfl
  · left
    rw [h]
    simp only [waitDelays_append, prvInitializeStaticCond_waitDelays,
      deadlineToDelay_waitDelays, waitDelays_loop _ hreg]
    rfl
  · left
    rw [h]
    simp only [waitDelays_append, prvInitializeStaticCond_waitDelays,
      deadlineToDelay_waitDelays, waitDelays_loop _ hreg]
    rfl
  · right
    refine ⟨(prvInitializeStaticCond env c).trace ++ (deadlineToDelay env abstime).2.2
        ++ [Event.taskENTER_CRITICAL] ++ reg ++ [Event.taskEXIT_CRITICAL],
      de ++ [Event.taskEXIT_CRITICAL], ?_, ?_, ?_, hst⟩
    · rw [h]
      simp only [List.append_assoc]
    · simp only [waitDelays_append, prvInitializeStaticCond_waitDelays,
        deadlineToDelay_waitDelays, waitDelays_loop _ hreg]
      rfl
    · simp only [waitDelays_append, waitDelays_loop _ hde]
      rfl

theorem mem_putFirst (cur a : TaskHandle_t) (l : List TaskHandle_t)
    (h : a ∈ putFirst cur l) : a = cur ∨ a ∈ l := by
  induction l with
  | nil => simp [putFirst] at h
  | cons b l ih =>
    unfold putFirst at h
    split at h
    · rcases List.mem_cons.mp h with h | h
      · exact Or.inl h
      · exact Or.inr (List.mem_cons_of_mem _ h)
    · rcases List.mem_cons.mp h with h | h
      · exact Or.inr (h ▸ List.mem_cons_self _ _)
      · rcases ih h with h | h
        · exact Or.inl h
        · exact Or.inr (List.mem_cons_of_mem _ h)

theorem cur_mem_putFirst (cur : TaskHandle_t) (l : List TaskHandle_t) (hcur : cur ≠ NULL)
    (hfree : NULL ∈ l) : cur ∈ putFirst cur l := by
  have := putFirst_count cur l hcur hfree
  exact List.count_pos_iff.mp (by omega)

theorem ready_putFirst (c : pthread_cond_internal_t) (ws : List TaskHandle_t)
    (cur : TaskHandle_t) (h : Ready c ws) :
    Ready { c with xTasksWaiting := some (putFirst cur ws) } (putFirst cur ws) := by
  obtain ⟨h1, -, h3⟩ := h
  exact ⟨h1, rfl, by rw [putFirst_length]; exact h3⟩

theorem slotsDistinct_replicate (n : Nat) : SlotsDistinct (List.replicate n NULL) := by
  have : occupied (List.replicate n NULL) = [] := by
    induction n with
    | zero => rfl
    | succ n ih => rw [List.replicate_succ, occupied_cons]; simpa using ih
  simp [SlotsDistinct, this]

theorem occupied_putFirst_perm (cur : TaskHandle_t) (l : List TaskHandle_t) (hcur : cur ≠ NULL)
    (hfree : NULL ∈ l) : (occupied (putFirst cur l)).Perm (cur :: occupied l) := by
  induction l with
  | nil => simp at hfree
  | cons a l ih =>
    unfold putFirst
    by_cases ha : a = NULL
    · subst ha
      simp [occupied_cons, hcur]
    · have hin : NULL ∈ l := by
        rcases List.mem_cons.mp hfree with h | h
        · exact absurd h.symm ha
        · exact h
      simp only [ha, if_false, occupied_cons, ne_eq, not_false_eq_true, if_true]
      exact ((ih hin).cons a).trans (List.Perm.swap _ _ _)

theorem occupied_clearFirst_sublist (cur : TaskHandle_t) (l : List TaskHandle_t) :
    (occupied (clearFirst cur l)).Sublist (occupied l) := by
  induction l with
  | nil => simp [clearFirst]
  | cons a l ih =>
    unfold clearFirst
    by_cases ha : a = cur
    · simp only [ha, if_true]
      rw [occupied_cons, occupied_cons]
      by_cases hc : cur = NULL
      · simp [hc]
      · simp [hc]
    · simp only [ha, if_false]
      rw [occupied_cons, occupied_cons]
      by_cases hn : a = NULL
      · simpa [hn] using ih
      · simpa [hn] using ih.cons₂ a

/-- The operations other than a wait keep each task in at most one slot, and so
does a wait called by a task that is in no slot when the call begins, as long as
the other tasks keep the invariant and do not write the caller's handle. -/
theorem slotsDistinct_preserved (env : Env) (c : pthread_cond_internal_t)
    (ws : List TaskHandle_t) (mutex : Nat) (abstime : Option timespec) (hready : Ready c ws)
    (hdist : SlotsDistinct ws) :
    SlotsDistinct (slots (pthread_cond_signal env c).cond) ∧
    SlotsDistinct (slots (pthread_cond_broadcast env c).cond) ∧
    (env.xTaskGetCurrentTaskHandle ≠ NULL → env.xTaskGetCurrentTaskHandle ∉ ws →
      (∀ l, (env.otherTasks l).length = l.length) →
      (∀ l, SlotsDistinct l → SlotsDistinct (env.otherTasks l)) →
      SlotsDistinct (slots (pthread_cond_timedwait env c mutex abstime).cond)) := by
  have hslots : slots c = ws := by simp [slots, hready.2.1]
  refine ⟨?_, ?_, ?_⟩
  · have hsig := pthread_cond_signal_ready env c ws hready
    cases hs : (signalScan env.uxTaskPriorityGet ws ws.length 0 none).1 with
    | none =>
      rw [hs] at hsig
      rw [hsig, hslots]
      exact hdist
    | some j =>
      rw [hs] at hsig
      rw [hsig]
      simp only [slots, Option.getD_some]
      by_cases hj : rd ws j = NULL
      · have : ws.set j NULL = ws := by
          apply List.ext_getElem?
          intro i
          unfold rd at hj
          rw [List.getElem?_set]
          by_cases hji : j = i
          · subst hji
            by_cases hlt : j < ws.length
            · simp only [hlt, if_true]
              rw [List.getElem?_eq_getElem hlt] at hj ⊢
              simp only [Option.getD_some] at hj
              rw [hj]
            · simp only [hlt, if_false, if_true]
              exact (List.getElem?_eq_none (by omega)).symm
          · simp [hji]
        rw [this]
        exact hdist
      · have hperm := occupied_set_perm ws j hj
        unfold SlotsDistinct at hdist ⊢
        exact (List.nodup_cons.mp (hperm.nodup_iff.mp hdist)).2
  · rw [(pthread_cond_broadcast_ready env c ws hready).2.1]
    simp only [slots, Option.getD_some]
    exact slotsDistinct_replicate _
  · intro hcur hfresh hlen hothers
    obtain ⟨h1, h2, h3, h4⟩ := timedwait_ready env c ws mutex abstime hready
    have hput : NULL ∈ ws → SlotsDistinct (putFirst env.xTaskGetCurrentTaskHandle ws) := by
      intro hfree
      unfold SlotsDistinct at hdist ⊢
      apply (occupied_putFirst_perm _ _ hcur hfree).nodup_iff.mpr
      refine List.nodup_cons.mpr ⟨?_, hdist⟩
      intro hin
      exact hfresh ((mem_occupied ws _).mp hin).1
    by_cases hd : (deadlineToDelay env abstime).1 = 0
    · by_cases hfree : NULL ∈ ws
      · by_cases hu : env.pthread_mutex_unlock mutex = 0
        · rw [(h4 hd hfree hu).2]
          have hde := deregisterLoop_spec env.xTaskGetCurrentTaskHandle []
            (env.otherTasks (putFirst env.xTaskGetCurrentTaskHandle ws))
          simp only [List.length_nil, List.nil_append, hlen, putFirst_length] at hde
          simp only [slots, Option.getD_some, hde]
          have := hothers _ (hput hfree)
          unfold SlotsDistinct at this ⊢
          exact (occupied_clearFirst_sublist _ _).nodup this
        · rw [(h3 hd hfree hu).2]
          simp only [slots, Option.getD_some]
          exact hput hfree
      · rw [(h2 hd hfree).2, hslots]
        exact hdist
    · rw [(h1 hd).2, hslots]
      exact hdist

theorem prvInitializeStaticCond_ret_eq (env : Env) (c : pthread_cond_internal_t) :
    (prvInitializeStaticCond env c).ret = (prvInitializeStaticCond env c).cond.xIsInitialized := by
  rcases prvInitializeStaticCond_cases env c with
    ⟨h1, e⟩ | ⟨h1, -, e⟩ | ⟨h1, -, -, e⟩ | ⟨g, -, -, -, e⟩
  · rw [e]; exact h1.symm
  · rw [e]; exact h1.symm
  · rw [e]; exact h1.symm
  · rw [e]

/-- The execution of `pthread_cond_timedwait` with a null deadline when, after the
lazy initialisation, the condition variable is initialised with an empty slot and
the unlock succeeds: the caller registers, releases the mutex, blocks with
`portMAX_DELAY`, re-locks and de-registers. -/
theorem timedwait_null_deadline_blocks (env : Env) (c : pthread_cond_internal_t)
    (ws : List TaskHandle_t) (mutex : Nat)
    (hready : Ready (prvInitializeStaticCond env c).cond ws) (hfree : NULL ∈ ws)
    (hunlock : env.pthread_mutex_unlock mutex = 0) :
    (pthread_cond_timedwait env c mutex none).trace
      = (prvInitializeStaticCond env c).trace ++ [Event.taskENTER_CRITICAL]
          ++ (registerLoop env.xTaskGetCurrentTaskHandle ws.length 0 ws).2.2
          ++ [Event.taskEXIT_CRITICAL]
          ++ [Event.pthread_mutex_unlock mutex 0,
              Event.xTaskNotifyWait env.portMAX_DELAY
                (env.xTaskNotifyWait env.portMAX_DELAY),
              Event.pthread_mutex_lock mutex (env.pthread_mutex_lock mutex),
              Event.taskENTER_CRITICAL]
          ++ (deregisterLoop env.xTaskGetCurrentTaskHandle ws.length 0
                (env.otherTasks (putFirst env.xTaskGetCurrentTaskHandle ws))).2
          ++ [Event.taskEXIT_CRITICAL] ∧
    (pthread_cond_timedwait env c mutex none).status
      = (if env.xTaskNotifyWait env.portMAX_DELAY = true
          then env.pthread_mutex_lock mutex else ETIMEDOUT) ∧
    (pthread_cond_timedwait env c mutex none).cond
      = { (prvInitializeStaticCond env c).cond with
          xTasksWaiting := some (deregisterLoop env.xTaskGetCurrentTaskHandle ws.length 0
            (env.otherTasks (putFirst env.xTaskGetCurrentTaskHandle ws))).1 } := by
  obtain ⟨hinit, hws, hl⟩ := hready
  have hret : (prvInitializeStaticCond env c).ret = true := by
    rw [prvInitializeStaticCond_ret_eq]; exact hinit
  have hn : (prvInitializeStaticCond env c).cond.tasksLenth.toNat = ws.length := by omega
  have hreg := registerLoop_spec env.xTaskGetCurrentTaskHandle [] ws
  simp only [List.length_nil, List.nil_append] at hreg
  have hd : deadlineToDelay env none = (0, env.portMAX_DELAY, []) := rfl
  unfold pthread_cond_timedwait
  simp [hret, slots, hws, hn, hd, hreg, hfree, hunlock, withSlots]

/-! ## Claims -/

/-- C1: on an initialised condition variable with at least one occupied waiter
slot, whatever the priorities, `pthread_cond_signal` returns 0 and sends exactly
one notification; the notified task is a registered waiter (a non-null handle of
the waiter array) whose priority is at least that of every task in the array. -/
theorem signal_notifies_one_highest_priority_waiter (env : Env)
    (c : pthread_cond_internal_t) (ws : List TaskHandle_t) (hready : Ready c ws)
    (hocc : ∃ h, h ∈ ws ∧ h ≠ NULL) :
    (pthread_cond_signal env c).status = 0 ∧
    ∃ t, notified (pthread_cond_signal env c).trace = [t] ∧ t ≠ NULL ∧ t ∈ ws ∧
      ∀ h, h ∈ ws → h ≠ NULL → env.uxTaskPriorityGet h ≤ env.uxTaskPriorityGet t := by
  obtain ⟨j, hj, -, hne, hmax, -⟩ := signalScan_full env.uxTaskPriorityGet ws hocc
  rw [pthread_cond_signal_ready env c ws hready, hj]
  refine ⟨rfl, rd ws j, ?_, hne, rd_mem ws j hne, ?_⟩
  · have hs := signalScan_notified env.uxTaskPriorityGet ws ws.length 0 none
    simp only [notified] at hs ⊢
    simp [List.filterMap_append, hs]
  · intro h hmem hnn
    obtain ⟨i, hi, hr⟩ := mem_rd ws h hmem
    have := hmax i hi (hr ▸ hnn)
    rwa [hr] at this

/-- C1 at three waiters of priorities 1, 3, 2. -/
theorem signal_notifies_one_highest_priority_waiter_witness :
    Ready exampleCond [11, 13, 12] ∧
    (pthread_cond_signal exampleEnv exampleCond).status = 0 ∧
    ∃ t, notified (pthread_cond_signal exampleEnv exampleCond).trace = [t] ∧ t ≠ NULL
      ∧ t ∈ [11, 13, 12] ∧
      ∀ h, h ∈ [11, 13, 12] → h ≠ NULL →
        exampleEnv.uxTaskPriorityGet h ≤ exampleEnv.uxTaskPriorityGet t :=
  ⟨by decide,
    signal_notifies_one_highest_priority_waiter exampleEnv exampleCond [11, 13, 12]
      (by decide) ⟨11, by decide, by decide⟩⟩

/-- C2: on an initialised condition variable holding `k` registered waiters (`k`
occupied slots), with fixed priorities and nothing else touching the array,
`k` successive calls of `pthread_cond_signal` notify each waiter exactly once
(the notified tasks are a rearrangement of the occupied slots), in non-increasing
priority order, and leave an array of the same capacity with every slot empty.
The priorities of the tasks woken, in wake order, are the priorities of the
waiters sorted in decreasing order: waiters of priorities 1, 3, 2 are woken in
the order 3, 2, 1. -/
theorem successive_signals_wake_every_waiter_by_priority (env : Env)
    (c : pthread_cond_internal_t) (ws : List TaskHandle_t) (hready : Ready c ws) :
    (notified (signalTimes env (occupied ws).length c).2).Perm (occupied ws) ∧
    (notified (signalTimes env (occupied ws).length c).2).Pairwise
      (fun a b => env.uxTaskPriorityGet b ≤ env.uxTaskPriorityGet a) ∧
    (notified (signalTimes env (occupied ws).length c).2).map env.uxTaskPriorityGet
      = ((occupied ws).map env.uxTaskPriorityGet).insertionSort (fun a b => a ≥ b) ∧
    (signalTimes env (occupied ws).length c).1
      = { c with xTasksWaiting := some (List.replicate ws.length NULL) } ∧
    occupied (slots (signalTimes env (occupied ws).length c).1) = [] ∧
    ((occupied ws).map env.uxTaskPriorityGet = [1, 3, 2] →
      (notified (signalTimes env (occupied ws).length c).2).map env.uxTaskPriorityGet
        = [3, 2, 1]) := by
  obtain ⟨h1, h2, h3, h4⟩ := signalTimes_spec env c ws hready
  have hsort : (notified (signalTimes env (occupied ws).length c).2).map env.uxTaskPriorityGet
      = ((occupied ws).map env.uxTaskPriorityGet).insertionSort (fun a b => a ≥ b) := by
    apply List.eq_of_perm_of_sorted (r := fun a b : Nat => a ≥ b)
    · exact (h1.map _).trans (List.perm_insertionSort _ _).symm
    · exact List.pairwise_map.mpr h2
    · exact List.sorted_insertionSort (fun a b : Nat => a ≥ b) _
  refine ⟨h1, h2, hsort, h3, h4, ?_⟩
  intro hp
  rw [hsort, hp]
  decide

/-- C2 at three waiters of priorities 1, 3, 2: the three signals wake the task of
priority 3, then the task of priority 2, then the task of priority 1. -/
theorem successive_signals_wake_every_waiter_by_priority_witness :
    Ready exampleCond [11, 13, 12] ∧
    (occupied [11, 13, 12]).map exampleEnv.uxTaskPriorityGet = [1, 3, 2] ∧
    notified (signalTimes exampleEnv 3 exampleCond).2 = [13, 12, 11] ∧
    (notified (signalTimes exampleEnv (occupied [11, 13, 12]).length exampleCond).2).map
      exampleEnv.uxTaskPriorityGet = [3, 2, 1] ∧
    (signalTimes exampleEnv (occupied [11, 13, 12]).length exampleCond).1
      = { exampleCond with xTasksWaiting := some (List.replicate [11, 13, 12].length NULL) } :=
  have h := successive_signals_wake_every_waiter_by_priority exampleEnv exampleCond
    [11, 13, 12] (by decide)
  ⟨by decide, by decide, by decide, h.2.2.2.2.2 (by decide), h.2.2.2.1⟩

/-- C4: on an initialised condition variable whose slots are all occupied, when the
conversion of the deadline (if there is one) succeeded, `pthread_cond_timedwait`
returns `ENOMEM`, calls neither `pthread_mutex_unlock` nor `xTaskNotifyWait` nor
`pthread_mutex_lock`, writes no slot and leaves the condition variable as it was;
so does `pthread_cond_wait`. -/
theorem timedwait_without_free_slot_fails_without_blocking (env : Env)
    (c : pthread_cond_internal_t) (ws : List TaskHandle_t) (mutex : Nat)
    (abstime : Option timespec) (hready : Ready c ws)
    (hfull : ∀ h, h ∈ ws → h ≠ NULL)
    (hconv : (deadlineToDelay env abstime).1 = 0) :
    ((pthread_cond_timedwait env c mutex abstime).status = ENOMEM ∧
      syncCalls (pthread_cond_timedwait env c mutex abstime).trace = [] ∧
      (pthread_cond_timedwait env c mutex abstime).trace
        = (deadlineToDelay env abstime).2.2 ++ [Event.taskENTER_CRITICAL]
            ++ (List.range ws.length).map Event.slotRead ++ [Event.taskEXIT_CRITICAL] ∧
      (pthread_cond_timedwait env c mutex abstime).cond = c) ∧
    ((pthread_cond_wait env c mutex).status = ENOMEM ∧
      syncCalls (pthread_cond_wait env c mutex).trace = [] ∧
      (pthread_cond_wait env c mutex).trace
        = [Event.taskENTER_CRITICAL] ++ (List.range ws.length).map Event.slotRead
            ++ [Event.taskEXIT_CRITICAL] ∧
      (pthread_cond_wait env c mutex).cond = c) := by
  obtain ⟨hinit, hws, hlen⟩ := hready
  have hn : c.tasksLenth.toNat = ws.length := by omega
  have hreg := registerLoop_full env.xTaskGetCurrentTaskHandle [] ws hfull
  simp only [List.length_nil, List.nil_append, Nat.zero_add] at hreg
  have key : ∀ a : Option timespec, (deadlineToDelay env a).1 = 0 →
      pthread_cond_timedwait env c mutex a
        = ⟨ENOMEM, c, (deadlineToDelay env a).2.2 ++ [Event.taskENTER_CRITICAL]
            ++ (List.range ws.length).map Event.slotRead ++ [Event.taskEXIT_CRITICAL]⟩ := by
    intro a ha
    unfold pthread_cond_timedwait
    rw [prvInitializeStaticCond_of_initialized env c hinit]
    simp [slots, hws, hn, ha, hreg]
  have hsync : ∀ a : Option timespec,
      syncCalls ((deadlineToDelay env a).2.2 ++ [Event.taskENTER_CRITICAL]
        ++ (List.range ws.length).map Event.slotRead ++ [Event.taskEXIT_CRITICAL]) = [] := by
    intro a
    simp only [syncCalls_append, deadlineToDelay_syncCalls]
    simp [syncCalls, List.filter_map]
  refine ⟨?_, ?_⟩
  · rw [key abstime hconv]
    exact ⟨rfl, hsync abstime, rfl, rfl⟩
  · unfold pthread_cond_wait
    rw [key none rfl]
    exact ⟨rfl, hsync none, by simp [deadlineToDelay], rfl⟩

/-- C4 at a full array of three waiters, with a deadline and without. -/
theorem timedwait_without_free_slot_fails_without_blocking_witness :
    Ready exampleCond [11, 13, 12] ∧
    (pthread_cond_timedwait exampleEnv exampleCond 1 (some ⟨1, 0⟩)).status = ENOMEM ∧
    (pthread_cond_timedwait exampleEnv exampleCond 1 (some ⟨1, 0⟩)).cond = exampleCond ∧
    syncCalls (pthread_cond_wait exampleEnv exampleCond 1).trace = [] :=
  have h := timedwait_without_free_slot_fails_without_blocking exampleEnv exampleCond
    [11, 13, 12] 1 (some ⟨1, 0⟩) (by decide) (by decide) (by decide)
  ⟨by decide, h.1.1, h.1.2.2.2, h.2.2.1⟩

/-- C5: on an initialised condition variable whose slots are all empty
`pthread_cond_signal` returns 0, sends no notification, writes no slot and leaves
the condition variable (waiter array, capacity, initialised flag) as it was. -/
theorem signal_without_waiter_is_noop (env : Env) (c : pthread_cond_internal_t)
    (ws : List TaskHandle_t) (hready : Ready c ws) (hempty : ∀ h, h ∈ ws → h = NULL) :
    (pthread_cond_signal env c).status = 0 ∧
    notified (pthread_cond_signal env c).trace = [] ∧
    (pthread_cond_signal env c).cond = c := by
  have hinv := signalScan_inv env.uxTaskPriorityGet ws ws.length 0 none
    (by intro m hm; omega)
  have hnone : (signalScan env.uxTaskPriorityGet ws ws.length 0 none).1 = none := by
    cases hs : (signalScan env.uxTaskPriorityGet ws ws.length 0 none).1 with
    | none => rfl
    | some j =>
      rw [hs] at hinv
      exact absurd (hempty _ (rd_mem ws j hinv.2.1)) hinv.2.1
  rw [pthread_cond_signal_ready env c ws hready, hnone]
  refine ⟨rfl, ?_, rfl⟩
  simp only [notified_append, signalScan_notified]
  rfl

/-- C5 at an array of three empty slots. -/
theorem signal_without_waiter_is_noop_witness :
    Ready ⟨true, some [0, 0, 0], 3⟩ [0, 0, 0] ∧
    (pthread_cond_signal exampleEnv ⟨true, some [0, 0, 0], 3⟩).status = 0 ∧
    notified (pthread_cond_signal exampleEnv ⟨true, some [0, 0, 0], 3⟩).trace = [] ∧
    (pthread_cond_signal exampleEnv ⟨true, some [0, 0, 0], 3⟩).cond
      = ⟨true, some [0, 0, 0], 3⟩ :=
  ⟨by decide,
    signal_without_waiter_is_noop exampleEnv ⟨true, some [0, 0, 0], 3⟩ [0, 0, 0]
      (by decide) (by decide)⟩

/-- C6, as stated, fails: task `14` first calls `pthread_cond_wait` with a mutex it
does not own (the unlock fails, the call returns that status and leaves `14` in
slot 1), then calls `pthread_cond_timedwait` properly; it is registered (slot 2),
the mutex is released, the wait times out and the call returns `ETIMEDOUT`, yet
on return the handle `14` still occupies a slot. -/
theorem timedwait_timeout_leaves_earlier_registration :
    (pthread_cond_wait unlockFailsEnv oneWaiterCond 1).status = 1 ∧
    (pthread_cond_wait unlockFailsEnv oneWaiterCond 1).cond = ⟨true, some [11, 14, 0], 3⟩ ∧
    Event.slotWrite 2 14 ∈
      (pthread_cond_timedwait exampleEnv ⟨true, some [11, 14, 0], 3⟩ 1 (some ⟨1, 0⟩)).trace ∧
    syncCalls (pthread_cond_timedwait exampleEnv ⟨true, some [11, 14, 0], 3⟩ 1
        (some ⟨1, 0⟩)).trace
      = [Event.pthread_mutex_unlock 1 0, Event.xTaskNotifyWait 5 false,
         Event.pthread_mutex_lock 1 0] ∧
    (pthread_cond_timedwait exampleEnv ⟨true, some [11, 14, 0], 3⟩ 1 (some ⟨1, 0⟩)).status
      = ETIMEDOUT ∧
    (pthread_cond_timedwait exampleEnv ⟨true, some [11, 14, 0], 3⟩ 1 (some ⟨1, 0⟩)).cond
      = ⟨true, some [11, 0, 14], 3⟩ ∧
    exampleEnv.xTaskGetCurrentTaskHandle ∈
      slots (pthread_cond_timedwait exampleEnv ⟨true, some [11, 14, 0], 3⟩ 1
        (some ⟨1, 0⟩)).cond := by
  decide

/-- C6, amended: on an initialised condition variable in which the calling task
occupies no slot when the call begins, if the deadline conversion succeeded (with
any delay, zero included), the caller was registered (there was an empty slot),
the mutex was released and the blocking wait ended by the delay elapsing, then
`pthread_cond_timedwait` returns `ETIMEDOUT`, it re-locked the mutex after the
wait, and on return the calling task's handle occupies no slot.  The other tasks
may do anything to the slots meanwhile except write the caller's handle. -/
theorem timedwait_timeout_returns_ETIMEDOUT_deregistered (env : Env)
    (c : pthread_cond_internal_t) (ws : List TaskHandle_t) (mutex : Nat)
    (abstime : Option timespec) (hready : Ready c ws)
    (hcur : env.xTaskGetCurrentTaskHandle ≠ NULL)
    (hfresh : env.xTaskGetCurrentTaskHandle ∉ ws)
    (hothersLen : ∀ l, (env.otherTasks l).length = l.length)
    (hothers : ∀ l, (env.otherTasks l).count env.xTaskGetCurrentTaskHandle
        ≤ l.count env.xTaskGetCurrentTaskHandle)
    (hconv : (deadlineToDelay env abstime).1 = 0)
    (hfree : NULL ∈ ws)
    (hunlock : env.pthread_mutex_unlock mutex = 0)
    (htimeout : env.xTaskNotifyWait (deadlineToDelay env abstime).2.1 = false) :
    (pthread_cond_timedwait env c mutex abstime).status = ETIMEDOUT ∧
    env.xTaskGetCurrentTaskHandle ∉ slots (pthread_cond_timedwait env c mutex abstime).cond ∧
    syncCalls (pthread_cond_timedwait env c mutex abstime).trace
      = [Event.pthread_mutex_unlock mutex 0,
         Event.xTaskNotifyWait (deadlineToDelay env abstime).2.1 false,
         Event.pthread_mutex_lock mutex (env.pthread_mutex_lock mutex)] := by
  have hlen : (env.otherTasks (putFirst env.xTaskGetCurrentTaskHandle ws)).length
      = ws.length := by
    rw [hothersLen, putFirst_length]
  obtain ⟨hst, hcond⟩ := timedwait_blocked env c ws mutex abstime hready hconv hfree hunlock hlen
  refine ⟨by rw [hst, htimeout]; simp, ?_, ?_⟩
  · rw [hcond]
    simp only [slots, Option.getD_some]
    rw [← List.count_eq_zero, clearFirst_count _ _ hcur]
    have h1 := hothers (putFirst env.xTaskGetCurrentTaskHandle ws)
    rw [putFirst_count _ _ hcur hfree, List.count_eq_zero.mpr hfresh] at h1
    omega
  · rcases timedwait_syncCalls_cases env c mutex abstime with h | ⟨hne, -⟩ | ⟨-, h⟩
    · exfalso
      obtain ⟨hinit, hws, hl⟩ := hready
      have hn : c.tasksLenth.toNat = ws.length := by omega
      have hreg := registerLoop_spec env.xTaskGetCurrentTaskHandle [] ws
      simp only [List.length_nil, List.nil_append] at hreg
      have hmem : Event.pthread_mutex_unlock mutex 0
          ∈ (pthread_cond_timedwait env c mutex abstime).trace := by
        unfold pthread_cond_timedwait
        rw [prvInitializeStaticCond_of_initialized env c hinit]
        simp [slots, hws, hn, hconv, hreg, hfree, hunlock]
      have := unlock_mem_syncCalls mutex 0 _ hmem
      rw [h] at this
      simp at this
    · exact absurd hunlock hne
    · rw [h, htimeout]

/-- C6 amended, at a condition variable where task `11` waits and the caller `14`
is not registered, with a deadline converted to 5 ticks. -/
theorem timedwait_timeout_returns_ETIMEDOUT_deregistered_witness :
    Ready oneWaiterCond [11, 0, 0] ∧
    (pthread_cond_timedwait exampleEnv oneWaiterCond 1 (some ⟨1, 0⟩)).status = ETIMEDOUT ∧
    exampleEnv.xTaskGetCurrentTaskHandle ∉
      slots (pthread_cond_timedwait exampleEnv oneWaiterCond 1 (some ⟨1, 0⟩)).cond ∧
    syncCalls (pthread_cond_timedwait exampleEnv oneWaiterCond 1 (some ⟨1, 0⟩)).trace
      = [Event.pthread_mutex_unlock 1 0,
         Event.xTaskNotifyWait (deadlineToDelay exampleEnv (some ⟨1, 0⟩)).2.1 false,
         Event.pthread_mutex_lock 1 (exampleEnv.pthread_mutex_lock 1)] :=
  ⟨by decide,
    timedwait_timeout_returns_ETIMEDOUT_deregistered exampleEnv oneWaiterCond [11, 0, 0] 1
      (some ⟨1, 0⟩) (by decide) (by decide) (by decide) (fun _ => rfl) (fun _ => le_refl _)
      rfl (by decide) rfl rfl⟩

/-- C7: in every execution of `pthread_cond_timedwait` that released the mutex
(`pthread_mutex_unlock` on it was called and returned 0), the mutex calls and
blocking waits of the execution are exactly: that unlock, then `xTaskNotifyWait`,
then one `pthread_mutex_lock` on the same mutex, whether the wait reports a
notification or a timeout; in every execution that did not release the mutex no
`pthread_mutex_lock` is called at all.  The same holds of `pthread_cond_wait`. -/
theorem wait_relocks_exactly_when_released (env : Env) (c : pthread_cond_internal_t)
    (mutex : Nat) (abstime : Option timespec) :
    (Event.pthread_mutex_unlock mutex 0 ∈ (pthread_cond_timedwait env c mutex abstime).trace →
      syncCalls (pthread_cond_timedwait env c mutex abstime).trace
        = [Event.pthread_mutex_unlock mutex 0,
           Event.xTaskNotifyWait (deadlineToDelay env abstime).2.1
             (env.xTaskNotifyWait (deadlineToDelay env abstime).2.1),
           Event.pthread_mutex_lock mutex (env.pthread_mutex_lock mutex)]) ∧
    (Event.pthread_mutex_unlock mutex 0 ∉ (pthread_cond_timedwait env c mutex abstime).trace →
      ∀ m r, Event.pthread_mutex_lock m r ∉
        (pthread_cond_timedwait env c mutex abstime).trace) ∧
    (Event.pthread_mutex_unlock mutex 0 ∈ (pthread_cond_wait env c mutex).trace →
      syncCalls (pthread_cond_wait env c mutex).trace
        = [Event.pthread_mutex_unlock mutex 0,
           Event.xTaskNotifyWait env.portMAX_DELAY (env.xTaskNotifyWait env.portMAX_DELAY),
           Event.pthread_mutex_lock mutex (env.pthread_mutex_lock mutex)]) ∧
    (Event.pthread_mutex_unlock mutex 0 ∉ (pthread_cond_wait env c mutex).trace →
      ∀ m r, Event.pthread_mutex_lock m r ∉ (pthread_cond_wait env c mutex).trace) := by
  have key : ∀ a : Option timespec,
      (Event.pthread_mutex_unlock mutex 0 ∈ (pthread_cond_timedwait env c mutex a).trace →
        syncCalls (pthread_cond_timedwait env c mutex a).trace
          = [Event.pthread_mutex_unlock mutex 0,
             Event.xTaskNotifyWait (deadlineToDelay env a).2.1
               (env.xTaskNotifyWait (deadlineToDelay env a).2.1),
             Event.pthread_mutex_lock mutex (env.pthread_mutex_lock mutex)]) ∧
      (Event.pthread_mutex_unlock mutex 0 ∉ (pthread_cond_timedwait env c mutex a).trace →
        ∀ m r, Event.pthread_mutex_lock m r ∉ (pthread_cond_timedwait env c mutex a).trace) := by
    intro a
    rcases timedwait_syncCalls_cases env c mutex a with h | ⟨hne, h⟩ | ⟨-, h⟩
    · refine ⟨?_, ?_⟩
      · intro hin
        have := unlock_mem_syncCalls mutex 0 _ hin
        rw [h] at this
        simp at this
      · intro _ m r hin
        have := lock_mem_syncCalls m r _ hin
        rw [h] at this
        simp at this
    · refine ⟨?_, ?_⟩
      · intro hin
        have := unlock_mem_syncCalls mutex 0 _ hin
        rw [h] at this
        simp only [List.mem_singleton, Event.pthread_mutex_unlock.injEq, true_and] at this
        exact absurd this.symm hne
      · intro _ m r hin
        have := lock_mem_syncCalls m r _ hin
        rw [h] at this
        simp at this
    · refine ⟨fun _ => h, ?_⟩
      intro hnot
      exfalso
      apply hnot
      apply mem_syncCalls
      rw [h]
      simp
  exact ⟨(key abstime).1, (key abstime).2, (key none).1, (key none).2⟩

/-- C7 on three executions: a wait that ends on a notification, a timed wait that
ends on a timeout, and a wait whose unlock fails. -/
theorem wait_relocks_exactly_when_released_witness :
    syncCalls (pthread_cond_wait notifiedEnv oneWaiterCond 1).trace
      = [Event.pthread_mutex_unlock 1 0, Event.xTaskNotifyWait 4294967295 true,
         Event.pthread_mutex_lock 1 0] ∧
    syncCalls (pthread_cond_timedwait exampleEnv oneWaiterCond 1 (some ⟨1, 0⟩)).trace
      = [Event.pthread_mutex_unlock 1 0, Event.xTaskNotifyWait 5 false,
         Event.pthread_mutex_lock 1 0] ∧
    (∀ m r, Event.pthread_mutex_lock m r ∉
      (pthread_cond_timedwait unlockFailsEnv oneWaiterCond 1 (some ⟨1, 0⟩)).trace) :=
  ⟨(wait_relocks_exactly_when_released notifiedEnv oneWaiterCond 1 none).2.2.1 (by decide),
    (wait_relocks_exactly_when_released exampleEnv oneWaiterCond 1 (some ⟨1, 0⟩)).1
      (by decide),
    (wait_relocks_exactly_when_released unlockFailsEnv oneWaiterCond 1 (some ⟨1, 0⟩)).2.1
      (by decide)⟩

/-- C8, as stated, fails on a condition variable still in the statically declared
uninitialised state: with a failing clock read `pthread_cond_timedwait` returns
`EINVAL` but the condition variable has been initialised on the way (flag set,
array allocated); and when the allocation fails too the call returns `ENOMEM`,
not `EINVAL`. -/
theorem timedwait_clock_failure_after_lazy_initialisation :
    clockFailsEnv.clock_gettime.1 ≠ 0 ∧
    (pthread_cond_timedwait clockFailsEnv staticCond 1 (some ⟨1, 0⟩)).status = EINVAL ∧
    (pthread_cond_timedwait clockFailsEnv staticCond 1 (some ⟨1, 0⟩)).cond
      = ⟨true, some [0, 0, 0], 3⟩ ∧
    (pthread_cond_timedwait clockFailsEnv staticCond 1 (some ⟨1, 0⟩)).cond ≠ staticCond ∧
    (pthread_cond_timedwait { clockFailsEnv with pvPortMalloc := fun _ => none } staticCond 1
      (some ⟨1, 0⟩)).status = ENOMEM := by
  decide

/-- C8, amended: for every condition variable and every non-null deadline, if the
realtime-clock read fails then `pthread_cond_timedwait` neither unlocks nor locks
the mutex, does not block, and changes the condition variable only as lazy
initialisation does; it returns `EINVAL` when lazy initialisation returned true
and `ENOMEM` otherwise.  On a condition variable that was already initialised it
returns `EINVAL`, its only call is the clock read (no slot is touched) and the
waiter array, capacity and initialised flag are as before; on one that was not,
and whose allocation succeeds, it returns `EINVAL` with the flag now set, the same
capacity and an array of that many empty slots. -/
theorem timedwait_clock_failure (env : Env) (c : pthread_cond_internal_t) (mutex : Nat)
    (abstime : timespec) (hclock : env.clock_gettime.1 ≠ 0) :
    syncCalls (pthread_cond_timedwait env c mutex (some abstime)).trace = [] ∧
    (pthread_cond_timedwait env c mutex (some abstime)).cond
      = (prvInitializeStaticCond env c).cond ∧
    (pthread_cond_timedwait env c mutex (some abstime)).status
      = (if (prvInitializeStaticCond env c).ret = true then EINVAL else ENOMEM) ∧
    (c.xIsInitialized = true →
      pthread_cond_timedwait env c mutex (some abstime)
        = ⟨EINVAL, c, [Event.clock_gettime env.clock_gettime.1]⟩) ∧
    (∀ g, c.xIsInitialized = false → c.tasksLenth > 0 →
      env.pvPortMalloc c.tasksLenth.toNat = some g →
      (pthread_cond_timedwait env c mutex (some abstime)).status = EINVAL ∧
      (pthread_cond_timedwait env c mutex (some abstime)).cond
        = ⟨true, some (List.replicate c.tasksLenth.toNat NULL), c.tasksLenth⟩) := by
  have hd : deadlineToDelay env (some abstime)
      = (EINVAL, env.portMAX_DELAY, [Event.clock_gettime env.clock_gettime.1]) := by
    simp [deadlineToDelay, hclock]
  have hshape : pthread_cond_timedwait env c mutex (some abstime)
      = if (prvInitializeStaticCond env c).ret = false then
          ⟨ENOMEM, (prvInitializeStaticCond env c).cond, (prvInitializeStaticCond env c).trace⟩
        else
          ⟨EINVAL, (prvInitializeStaticCond env c).cond,
            (prvInitializeStaticCond env c).trace
              ++ [Event.clock_gettime env.clock_gettime.1]⟩ := by
    unfold pthread_cond_timedwait
    simp [hd]
  refine ⟨?_, ?_, ?_, ?_, ?_⟩
  · rw [hshape]
    split
    · exact prvInitializeStaticCond_syncCalls env c
    · simp only [syncCalls_append, prvInitializeStaticCond_syncCalls]
      rfl
  · rw [hshape]
    split <;> rfl
  · rw [hshape]
    cases (prvInitializeStaticCond env c).ret <;> simp
  · intro hinit
    rw [hshape, prvInitializeStaticCond_of_initialized env c hinit]
    simp
  · intro g hinit hcap hm
    rw [hshape, prvInitializeStaticCond_malloc_ok env c g hinit hcap hm, zeroLoop_block]
    simp

/-- C8 amended, at an initialised condition variable with three waiters. -/
theorem timedwait_clock_failure_witness :
    clockFailsEnv.clock_gettime.1 ≠ 0 ∧
    pthread_cond_timedwait clockFailsEnv exampleCond 1 (some ⟨1, 0⟩)
      = ⟨EINVAL, exampleCond, [Event.clock_gettime (-1)]⟩ ∧
    syncCalls (pthread_cond_timedwait clockFailsEnv exampleCond 1 (some ⟨1, 0⟩)).trace = [] :=
  have h := timedwait_clock_failure clockFailsEnv exampleCond 1 ⟨1, 0⟩ (by decide)
  ⟨by decide, h.2.2.2.1 rfl, h.1⟩

/-- C9: on a condition variable on which `prvInitializeStaticCond` returns false,
each of `pthread_cond_signal`, `pthread_cond_broadcast`, `pthread_cond_timedwait`
and `pthread_cond_wait` returns `ENOMEM`, sends no notification, makes no mutex
call and no blocking wait, and neither reads nor writes a waiter slot. -/
theorem failed_lazy_initialisation_gives_ENOMEM (env : Env) (c : pthread_cond_internal_t)
    (mutex : Nat) (abstime : Option timespec)
    (hfail : (prvInitializeStaticCond env c).ret = false) :
    ((pthread_cond_signal env c).status = ENOMEM ∧
      notified (pthread_cond_signal env c).trace = [] ∧
      syncCalls (pthread_cond_signal env c).trace = [] ∧
      slotAccesses (pthread_cond_signal env c).trace = []) ∧
    ((pthread_cond_broadcast env c).status = ENOMEM ∧
      notified (pthread_cond_broadcast env c).trace = [] ∧
      syncCalls (pthread_cond_broadcast env c).trace = [] ∧
      slotAccesses (pthread_cond_broadcast env c).trace = []) ∧
    ((pthread_cond_timedwait env c mutex abstime).status = ENOMEM ∧
      notified (pthread_cond_timedwait env c mutex abstime).trace = [] ∧
      syncCalls (pthread_cond_timedwait env c mutex abstime).trace = [] ∧
      slotAccesses (pthread_cond_timedwait env c mutex abstime).trace = []) ∧
    ((pthread_cond_wait env c mutex).status = ENOMEM ∧
      notified (pthread_cond_wait env c mutex).trace = [] ∧
      syncCalls (pthread_cond_wait env c mutex).trace = [] ∧
      slotAccesses (pthread_cond_wait env c mutex).trace = []) := by
  have htrace : notified (prvInitializeStaticCond env c).trace = [] ∧
      syncCalls (prvInitializeStaticCond env c).trace = [] ∧
      slotAccesses (prvInitializeStaticCond env c).trace = [] := by
    rcases prvInitializeStaticCond_cases env c with
      ⟨-, h⟩ | ⟨-, -, h⟩ | ⟨-, -, -, h⟩ | ⟨g, -, -, -, h⟩
    · rw [h] at hfail; simp at hfail
    · rw [h]; exact ⟨rfl, rfl, rfl⟩
    · rw [h]; exact ⟨rfl, rfl, rfl⟩
    · rw [h] at hfail; simp at hfail
  have hs : pthread_cond_signal env c
      = ⟨ENOMEM, (prvInitializeStaticCond env c).cond, (prvInitializeStaticCond env c).trace⟩ := by
    simp [pthread_cond_signal, hfail]
  have hb : pthread_cond_broadcast env c
      = ⟨ENOMEM, (prvInitializeStaticCond env c).cond, (prvInitializeStaticCond env c).trace⟩ := by
    simp [pthread_cond_broadcast, hfail]
  have ht : ∀ a : Option timespec, pthread_cond_timedwait env c mutex a
      = ⟨ENOMEM, (prvInitializeStaticCond env c).cond, (prvInitializeStaticCond env c).trace⟩ := by
    intro a
    simp [pthread_cond_timedwait, hfail]
  refine ⟨?_, ?_, ?_, ?_⟩
  · rw [hs]; exact ⟨rfl, htrace⟩
  · rw [hb]; exact ⟨rfl, htrace⟩
  · rw [ht abstime]; exact ⟨rfl, htrace⟩
  · unfold pthread_cond_wait
    rw [ht none]; exact ⟨rfl, htrace⟩

/-- C9 at a statically declared condition variable when the allocator has no
memory left. -/
theorem failed_lazy_initialisation_gives_ENOMEM_witness :
    (prvInitializeStaticCond noMemoryEnv staticCond).ret = false ∧
    (pthread_cond_signal noMemoryEnv staticCond).status = ENOMEM ∧
    (pthread_cond_broadcast noMemoryEnv staticCond).status = ENOMEM ∧
    (pthread_cond_timedwait noMemoryEnv staticCond 1 (some ⟨1, 0⟩)).status = ENOMEM ∧
    slotAccesses (pthread_cond_wait noMemoryEnv staticCond 1).trace = [] :=
  have h := failed_lazy_initialisation_gives_ENOMEM noMemoryEnv staticCond 1 (some ⟨1, 0⟩)
    (by decide)
  ⟨by decide, h.1.1, h.2.1.1, h.2.2.1.1, h.2.2.2.2.2.2⟩

/-- C10, as stated, fails: on an uninitialised condition variable of capacity 0
`prvInitializeStaticCond` returns false although no allocation failed; the
allocator of `exampleEnv` grants every request and is not even called. -/
theorem lazy_initialisation_refuses_zero_capacity :
    (prvInitializeStaticCond exampleEnv ⟨false, none, 0⟩).ret = false ∧
    (∀ n, exampleEnv.pvPortMalloc n ≠ none) ∧
    (prvInitializeStaticCond exampleEnv ⟨false, none, 0⟩).trace
      = [Event.vTaskSuspendAll, Event.xTaskResumeAll] ∧
    (prvInitializeStaticCond exampleEnv ⟨false, none, 0⟩).cond = ⟨false, none, 0⟩ :=
  ⟨by decide, fun n => by simp [exampleEnv], by decide, by decide⟩

/-- C10, amended: on an uninitialised condition variable `prvInitializeStaticCond`
returns false if and only if the capacity `tasksLenth` is not positive (then no
allocation is attempted and nothing changes) or the allocation of the waiter
array failed; whenever the capacity is positive and the allocation succeeds it
returns true, and afterwards the flag is set, the capacity is the same and the
waiter array has exactly that many slots, all empty. -/
theorem lazy_initialisation_outcome (env : Env) (c : pthread_cond_internal_t)
    (huninit : c.xIsInitialized = false) :
    ((prvInitializeStaticCond env c).ret = false ↔
      (c.tasksLenth ≤ 0 ∨ env.pvPortMalloc c.tasksLenth.toNat = none)) ∧
    (c.tasksLenth ≤ 0 →
      prvInitializeStaticCond env c
        = ⟨false, c, [Event.vTaskSuspendAll, Event.xTaskResumeAll]⟩) ∧
    (c.tasksLenth > 0 → env.pvPortMalloc c.tasksLenth.toNat ≠ none →
      (prvInitializeStaticCond env c).ret = true ∧
      (prvInitializeStaticCond env c).cond
        = ⟨true, some (List.replicate c.tasksLenth.toNat NULL), c.tasksLenth⟩ ∧
      Ready (prvInitializeStaticCond env c).cond (List.replicate c.tasksLenth.toNat NULL) ∧
      ∀ i, rd (slots (prvInitializeStaticCond env c).cond) i = NULL) := by
  have hok : c.tasksLenth > 0 → env.pvPortMalloc c.tasksLenth.toNat ≠ none →
      (prvInitializeStaticCond env c).ret = true ∧
      (prvInitializeStaticCond env c).cond
        = ⟨true, some (List.replicate c.tasksLenth.toNat NULL), c.tasksLenth⟩ := by
    intro hcap hm
    rcases Option.eq_none_or_eq_some (env.pvPortMalloc c.tasksLenth.toNat) with h | ⟨g, h⟩
    · exact absurd h hm
    · rw [prvInitializeStaticCond_malloc_ok env c g huninit hcap h, zeroLoop_block]
      exact ⟨rfl, rfl⟩
  refine ⟨?_, ?_, ?_⟩
  · constructor
    · intro hret
      by_contra hcon
      have h1 : c.tasksLenth > 0 := by
        by_contra h
        exact hcon (Or.inl (by omega))
      have h2 : env.pvPortMalloc c.tasksLenth.toNat ≠ none := fun h => hcon (Or.inr h)
      rw [(hok h1 h2).1] at hret
      simp at hret
    · intro h
      by_cases hcap : c.tasksLenth ≤ 0
      · rw [prvInitializeStaticCond_no_capacity env c huninit hcap]
      · rcases h with h | h
        · exact absurd h hcap
        · rw [prvInitializeStaticCond_malloc_fails env c huninit (by omega) h]
  · intro hcap
    exact prvInitializeStaticCond_no_capacity env c huninit hcap
  · intro hcap hm
    obtain ⟨h1, h2⟩ := hok hcap hm
    refine ⟨h1, h2, ?_, ?_⟩
    · rw [h2]
      refine ⟨rfl, rfl, ?_⟩
      simp only [List.length_replicate]
      omega
    · intro i
      rw [h2]
      simp only [slots, Option.getD_some, rd]
      by_cases hi : i < c.tasksLenth.toNat
      · simp [List.getElem?_replicate, hi]
      · simp [List.getElem?_replicate, hi]

/-- C10 amended, at a statically declared condition variable of capacity 3: with
memory it becomes three empty slots, without memory the function returns false. -/
theorem lazy_initialisation_outcome_witness :
    staticCond.xIsInitialized = false ∧
    (prvInitializeStaticCond exampleEnv staticCond).ret = true ∧
    (prvInitializeStaticCond exampleEnv staticCond).cond = ⟨true, some [0, 0, 0], 3⟩ ∧
    (prvInitializeStaticCond noMemoryEnv staticCond).ret = false :=
  ⟨rfl,
    ((lazy_initialisation_outcome exampleEnv staticCond rfl).2.2 (by decide)
      (by simp [exampleEnv])).1,
    ((lazy_initialisation_outcome exampleEnv staticCond rfl).2.2 (by decide)
      (by simp [exampleEnv])).2.1,
    (lazy_initialisation_outcome noMemoryEnv staticCond rfl).1.mpr (Or.inr rfl)⟩

/-- C11: lazy initialisation is idempotent.  On a condition variable whose flag
is already set `prvInitializeStaticCond` returns true, does nothing (no suspend
region, no allocation, no slot write) and leaves the waiter array, the capacity
and the flag as they are; this holds in particular of the state left by a call
of `prvInitializeStaticCond` that returned true.  Hence `pthread_cond_signal`,
`pthread_cond_broadcast`, `pthread_cond_timedwait` and `pthread_cond_wait` on an
initialised condition variable make no initialisation step, and no occupied slot
is wiped: after a signal or a broadcast a slot holds what it held unless its task
was notified by that call, and a wait without interference leaves every slot of
another task as it was. -/
theorem lazy_initialisation_is_idempotent (env env' : Env) (c : pthread_cond_internal_t)
    (mutex : Nat) (abstime : Option timespec) :
    (c.xIsInitialized = true →
      prvInitializeStaticCond env c = ⟨true, c, []⟩ ∧
      initSteps (pthread_cond_signal env c).trace = [] ∧
      initSteps (pthread_cond_broadcast env c).trace = [] ∧
      initSteps (pthread_cond_timedwait env c mutex abstime).trace = [] ∧
      initSteps (pthread_cond_wait env c mutex).trace = []) ∧
    ((prvInitializeStaticCond env c).ret = true →
      prvInitializeStaticCond env' (prvInitializeStaticCond env c).cond
        = ⟨true, (prvInitializeStaticCond env c).cond, []⟩) ∧
    (∀ ws, Ready c ws → ∀ i,
      (rd (slots (pthread_cond_signal env c).cond) i = rd ws i ∨
        rd ws i ∈ notified (pthread_cond_signal env c).trace) ∧
      (rd (slots (pthread_cond_broadcast env c).cond) i = rd ws i ∨
        rd ws i ∈ notified (pthread_cond_broadcast env c).trace) ∧
      ((∀ l, env.otherTasks l = l) → rd ws i ≠ NULL →
        rd ws i ≠ env.xTaskGetCurrentTaskHandle →
        rd (slots (pthread_cond_timedwait env c mutex abstime).cond) i = rd ws i ∧
        rd (slots (pthread_cond_wait env c mutex).cond) i = rd ws i)) := by
  refine ⟨?_, ?_, ?_⟩
  · intro hinit
    exact ⟨prvInitializeStaticCond_of_initialized env c hinit, signal_initSteps env c hinit,
      broadcast_initSteps env c hinit, timedwait_initSteps env c mutex abstime hinit,
      timedwait_initSteps env c mutex none hinit⟩
  · intro hret
    exact prvInitializeStaticCond_of_initialized env' _
      (prvInitializeStaticCond_ret_true env c hret)
  · intro ws hready i
    refine ⟨?_, ?_, ?_⟩
    · have hsig := pthread_cond_signal_ready env c ws hready
      cases hs : (signalScan env.uxTaskPriorityGet ws ws.length 0 none).1 with
      | none =>
        rw [hs] at hsig
        left
        rw [hsig]
        simp [slots, hready.2.1]
      | some j =>
        rw [hs] at hsig
        rw [hsig]
        simp only [slots, Option.getD_some, rd_set]
        by_cases hji : j = i ∧ j < ws.length
        · right
          have hn := signalScan_notified env.uxTaskPriorityGet ws ws.length 0 none
          simp only [notified_append, hn]
          simp [notified, hji.1]
        · left
          simp [hji]
    · obtain ⟨-, hcond, hnot⟩ := pthread_cond_broadcast_ready env c ws hready
      rw [hcond, hnot]
      simp only [slots, Option.getD_some, rd_replicate_NULL]
      by_cases h0 : rd ws i = NULL
      · left; exact h0.symm
      · right
        exact (mem_occupied ws _).mpr ⟨rd_mem ws i h0, h0⟩
    · intro hquiet hocc hother
      exact ⟨timedwait_keeps_other_slots env c ws mutex abstime hready hquiet i hocc hother,
        timedwait_keeps_other_slots env c ws mutex none hready hquiet i hocc hother⟩

/-- C11 at three waiters: a second lazy initialisation changes nothing, and after a
signal the slots of the two tasks that were not notified are as before. -/
theorem lazy_initialisation_is_idempotent_witness :
    exampleCond.xIsInitialized = true ∧
    Ready exampleCond [11, 13, 12] ∧
    prvInitializeStaticCond exampleEnv exampleCond = ⟨true, exampleCond, []⟩ ∧
    prvInitializeStaticCond noMemoryEnv (prvInitializeStaticCond exampleEnv staticCond).cond
      = ⟨true, (prvInitializeStaticCond exampleEnv staticCond).cond, []⟩ ∧
    (pthread_cond_signal exampleEnv exampleCond).cond = ⟨true, some [11, 0, 12], 3⟩ ∧
    initSteps (pthread_cond_wait exampleEnv exampleCond 1).trace = [] :=
  have h := lazy_initialisation_is_idempotent exampleEnv noMemoryEnv exampleCond 1 none
  have h' := lazy_initialisation_is_idempotent exampleEnv noMemoryEnv staticCond 1 none
  ⟨rfl, by decide, (h.1 rfl).1, h'.2.1 (by decide), by decide, (h.1 rfl).2.2.2.2⟩

/-- C12: whatever the state of the condition variable, `pthread_cond_init` sets the
capacity `tasksLenth` to the configuration constant
`posixconfigPTHREAD_COND_MAX_WAITERS`; if the allocation succeeds it returns 0 with
the flag set and a waiter array of exactly that many slots, all empty; if the
allocation fails it returns `ENOMEM`. -/
theorem init_sets_capacity_and_empty_slots (env : Env)
    (posixconfigPTHREAD_COND_MAX_WAITERS : Nat) (c : pthread_cond_internal_t) :
    (pthread_cond_init env posixconfigPTHREAD_COND_MAX_WAITERS c).cond.tasksLenth
      = (posixconfigPTHREAD_COND_MAX_WAITERS : Int) ∧
    (env.pvPortMalloc posixconfigPTHREAD_COND_MAX_WAITERS ≠ none →
      (pthread_cond_init env posixconfigPTHREAD_COND_MAX_WAITERS c).status = 0 ∧
      (pthread_cond_init env posixconfigPTHREAD_COND_MAX_WAITERS c).cond
        = ⟨true, some (List.replicate posixconfigPTHREAD_COND_MAX_WAITERS NULL),
            (posixconfigPTHREAD_COND_MAX_WAITERS : Int)⟩ ∧
      Ready (pthread_cond_init env posixconfigPTHREAD_COND_MAX_WAITERS c).cond
        (List.replicate posixconfigPTHREAD_COND_MAX_WAITERS NULL) ∧
      ∀ i, rd (slots (pthread_cond_init env posixconfigPTHREAD_COND_MAX_WAITERS c).cond) i
        = NULL) ∧
    (env.pvPortMalloc posixconfigPTHREAD_COND_MAX_WAITERS = none →
      (pthread_cond_init env posixconfigPTHREAD_COND_MAX_WAITERS c).status = ENOMEM) := by
  rcases Option.eq_none_or_eq_some (env.pvPortMalloc posixconfigPTHREAD_COND_MAX_WAITERS)
    with hm | ⟨g, hm⟩
  · refine ⟨by simp [pthread_cond_init, hm], fun h => absurd hm h, ?_⟩
    intro _
    simp [pthread_cond_init, hm]
  · have hcond : (pthread_cond_init env posixconfigPTHREAD_COND_MAX_WAITERS c).cond
        = ⟨true, some (List.replicate posixconfigPTHREAD_COND_MAX_WAITERS NULL),
            (posixconfigPTHREAD_COND_MAX_WAITERS : Int)⟩ := by
      simp [pthread_cond_init, hm, zeroLoop_block]
    refine ⟨by rw [hcond], ?_, ?_⟩
    · intro _
      refine ⟨by simp [pthread_cond_init, hm], hcond, ?_, ?_⟩
      · rw [hcond]
        exact ⟨rfl, rfl, by simp⟩
      · intro i
        rw [hcond]
        simp only [slots, Option.getD_some, rd_replicate_NULL]
    · intro h
      rw [hm] at h
      simp at h

/-- C12 with a capacity of 3, on a condition variable in any earlier state: with
memory the result is three empty slots, without memory the status is `ENOMEM`. -/
theorem init_sets_capacity_and_empty_slots_witness :
    (pthread_cond_init exampleEnv 3 exampleCond).status = 0 ∧
    (pthread_cond_init exampleEnv 3 exampleCond).cond = ⟨true, some [0, 0, 0], 3⟩ ∧
    (pthread_cond_init noMemoryEnv 3 staticCond).status = ENOMEM ∧
    (pthread_cond_init noMemoryEnv 3 staticCond).cond.tasksLenth = 3 :=
  have h := init_sets_capacity_and_empty_slots exampleEnv 3 exampleCond
  have h' := init_sets_capacity_and_empty_slots noMemoryEnv 3 staticCond
  ⟨(h.2.1 (by simp [exampleEnv])).1, (h.2.1 (by simp [exampleEnv])).2.1, h'.2.2 rfl, h'.1⟩

/-- C13: `pthread_cond_wait(cond, mutex)` is `pthread_cond_timedwait(cond, mutex,
NULL)`: same status, same final state, same trace.  With a null deadline the
realtime clock is never read and the deadline is never converted: the trace has
no such call, the outcome is the same whatever the clock and the conversion would
have returned, and the conversion step yields status 0 and the delay
`portMAX_DELAY`.  Whenever the condition variable is initialised (possibly by the
call itself) with an empty slot and the unlock succeeds, the call does block: its
mutex calls and waits are the unlock, one `xTaskNotifyWait` issued with
`portMAX_DELAY`, and the re-lock, and its status is the re-lock's after a
notification and `ETIMEDOUT` after a timeout of that wait.  In every execution
the wait is issued at most once and only with `portMAX_DELAY`, and the returned
status is `ENOMEM`, the status of the unlock, the status of the re-lock, or
`ETIMEDOUT` after a blocking wait with `portMAX_DELAY` that reported a timeout;
never a status of the clock or of the conversion. -/
theorem wait_is_timedwait_with_null_deadline (env : Env) (c : pthread_cond_internal_t)
    (mutex : Nat) (clock : Int × timespec) (convert : timespec → timespec → Int × TickType_t) :
    pthread_cond_wait env c mutex = pthread_cond_timedwait env c mutex none ∧
    clockReads (pthread_cond_wait env c mutex).trace = [] ∧
    pthread_cond_wait
        { env with clock_gettime := clock, UTILS_AbsoluteTimespecToDeltaTicks := convert }
        c mutex
      = pthread_cond_wait env c mutex ∧
    deadlineToDelay env none = (0, env.portMAX_DELAY, []) ∧
    (waitDelays (pthread_cond_wait env c mutex).trace = [] ∨
      waitDelays (pthread_cond_wait env c mutex).trace = [env.portMAX_DELAY]) ∧
    ((pthread_cond_wait env c mutex).status = ENOMEM ∨
      (pthread_cond_wait env c mutex).status = env.pthread_mutex_unlock mutex ∨
      (pthread_cond_wait env c mutex).status = env.pthread_mutex_lock mutex ∨
      ((pthread_cond_wait env c mutex).status = ETIMEDOUT ∧
        Event.xTaskNotifyWait env.portMAX_DELAY false
          ∈ (pthread_cond_wait env c mutex).trace)) ∧
    (∀ ws, Ready (prvInitializeStaticCond env c).cond ws → NULL ∈ ws →
      env.pthread_mutex_unlock mutex = 0 →
      waitDelays (pthread_cond_wait env c mutex).trace = [env.portMAX_DELAY] ∧
      syncCalls (pthread_cond_wait env c mutex).trace
        = [Event.pthread_mutex_unlock mutex 0,
           Event.xTaskNotifyWait env.portMAX_DELAY (env.xTaskNotifyWait env.portMAX_DELAY),
           Event.pthread_mutex_lock mutex (env.pthread_mutex_lock mutex)] ∧
      (pthread_cond_wait env c mutex).status
        = (if env.xTaskNotifyWait env.portMAX_DELAY = true
            then env.pthread_mutex_lock mutex else ETIMEDOUT) ∧
      (pthread_cond_wait env c mutex).cond
        = { (prvInitializeStaticCond env c).cond with
            xTasksWaiting := some (deregisterLoop env.xTaskGetCurrentTaskHandle ws.length 0
              (env.otherTasks (putFirst env.xTaskGetCurrentTaskHandle ws))).1 }) := by
  refine ⟨rfl, timedwait_clockReads_none env c mutex, rfl, rfl,
    timedwait_waitDelays env c mutex none, ?_, ?_⟩
  · unfold pthread_cond_wait
    obtain ⟨reg, de, -, -, h⟩ := timedwait_shape env c mutex none
    have hd : deadlineToDelay env none = (0, env.portMAX_DELAY, []) := rfl
    rw [hd] at h
    rcases h with ⟨-, h, -⟩ | ⟨-, -, h⟩ | ⟨-, h, -⟩ | ⟨-, h, -⟩ | ⟨ht, h, -⟩
    · exact Or.inl h
    · exact absurd rfl h
    · exact Or.inl h
    · exact Or.inr (Or.inl h)
    · cases hw : env.xTaskNotifyWait env.portMAX_DELAY with
      | true =>
        simp only [hw, if_true] at h
        exact Or.inr (Or.inr (Or.inl h))
      | false =>
        simp only [hw, Bool.false_eq_true, if_false] at h
        refine Or.inr (Or.inr (Or.inr ⟨h, ?_⟩))
        rw [ht, hw]
        simp
  · intro ws hready hfree hunlock
    unfold pthread_cond_wait
    obtain ⟨ht, hst, hcond⟩ := timedwait_null_deadline_blocks env c ws mutex hready hfree hunlock
    refine ⟨?_, ?_, hst, hcond⟩
    · rw [ht]
      simp only [waitDelays_append, prvInitializeStaticCond_waitDelays,
        waitDelays_loop _ (registerLoop_loopEvent _ _ _ _),
        waitDelays_loop _ (deregisterLoop_loopEvent _ _ _ _)]
      rfl
    · rw [ht]
      simp only [syncCalls_append, prvInitializeStaticCond_syncCalls, registerLoop_syncCalls,
        deregisterLoop_syncCalls]
      rfl

/-- C13 on three executions of `pthread_cond_wait`: one that ends on a
notification, one on a statically declared condition variable that the call
initialises itself and whose wait times out, and one with a clock that would
fail.  Each blocks once, with `portMAX_DELAY`. -/
theorem wait_is_timedwait_with_null_deadline_witness :
    Ready (prvInitializeStaticCond notifiedEnv oneWaiterCond).cond [11, 0, 0] ∧
    Ready (prvInitializeStaticCond exampleEnv staticCond).cond [0, 0, 0] ∧
    syncCalls (pthread_cond_wait notifiedEnv oneWaiterCond 1).trace
      = [Event.pthread_mutex_unlock 1 0,
         Event.xTaskNotifyWait notifiedEnv.portMAX_DELAY
           (notifiedEnv.xTaskNotifyWait notifiedEnv.portMAX_DELAY),
         Event.pthread_mutex_lock 1 (notifiedEnv.pthread_mutex_lock 1)] ∧
    waitDelays (pthread_cond_wait exampleEnv staticCond 1).trace = [exampleEnv.portMAX_DELAY] ∧
    (pthread_cond_wait notifiedEnv oneWaiterCond 1).status = 0 ∧
    (pthread_cond_wait notifiedEnv oneWaiterCond 1).cond = ⟨true, some [11, 0, 0], 3⟩ ∧
    (pthread_cond_wait exampleEnv staticCond 1).status = ETIMEDOUT ∧
    (pthread_cond_wait exampleEnv staticCond 1).cond = ⟨true, some [0, 0, 0], 3⟩ ∧
    Event.xTaskNotifyWait 4294967295 true
      ∈ (pthread_cond_wait notifiedEnv oneWaiterCond 1).trace ∧
    (pthread_cond_wait clockFailsEnv oneWaiterCond 1).status = ETIMEDOUT ∧
    waitDelays (pthread_cond_wait clockFailsEnv oneWaiterCond 1).trace = [4294967295] :=
  have h := (wait_is_timedwait_with_null_deadline notifiedEnv oneWaiterCond 1 (0, ⟨0, 0⟩)
    (fun _ _ => (0, 0))).2.2.2.2.2.2 [11, 0, 0] (by decide) (by decide) rfl
  have h' := (wait_is_timedwait_with_null_deadline exampleEnv staticCond 1 (0, ⟨0, 0⟩)
    (fun _ _ => (0, 0))).2.2.2.2.2.2 [0, 0, 0] (by decide) (by decide) rfl
  ⟨by decide, by decide, h.2.1, h'.1, by decide, by decide, by decide, by decide, by decide,
    by decide, by decide⟩

/-- C16: on an initialised condition variable with at least one empty slot, the
registration loop of `pthread_cond_timedwait` (lines 277-285) sets `iSet` and
writes the calling task's handle into the empty slot of lowest index `j`; its only
slot write is that one, every other slot keeps its content, and the number of
occupied slots grows by exactly one.  That array is the state with which the call
goes on: it is what the call leaves when it stops at a failing unlock, and what
the other tasks and the de-registration loop receive otherwise. -/
theorem registration_fills_lowest_empty_slot (env : Env) (c : pthread_cond_internal_t)
    (ws : List TaskHandle_t) (mutex : Nat) (abstime : Option timespec)
    (hready : Ready c ws) (hcur : env.xTaskGetCurrentTaskHandle ≠ NULL)
    (hfree : NULL ∈ ws) :
    ∃ j A, j < ws.length ∧ rd ws j = NULL ∧ (∀ m, m < j → rd ws m ≠ NULL) ∧
      registerLoop env.xTaskGetCurrentTaskHandle c.tasksLenth.toNat 0 (slots c)
        = (ws.set j env.xTaskGetCurrentTaskHandle, true,
            A ++ [Event.slotWrite j env.xTaskGetCurrentTaskHandle]) ∧
      slotAccesses A = (List.range (j + 1)).map Event.slotRead ∧
      rd (ws.set j env.xTaskGetCurrentTaskHandle) j = env.xTaskGetCurrentTaskHandle ∧
      (∀ i, i ≠ j → rd (ws.set j env.xTaskGetCurrentTaskHandle) i = rd ws i) ∧
      (occupied (ws.set j env.xTaskGetCurrentTaskHandle)).length
        = (occupied ws).length + 1 ∧
      ((deadlineToDelay env abstime).1 = 0 → env.pthread_mutex_unlock mutex ≠ 0 →
        (pthread_cond_timedwait env c mutex abstime).cond
          = { c with xTasksWaiting := some (ws.set j env.xTaskGetCurrentTaskHandle) }) ∧
      ((deadlineToDelay env abstime).1 = 0 → env.pthread_mutex_unlock mutex = 0 →
        (pthread_cond_timedwait env c mutex abstime).cond
          = { c with xTasksWaiting := some (deregisterLoop env.xTaskGetCurrentTaskHandle
                ws.length 0
                (env.otherTasks (ws.set j env.xTaskGetCurrentTaskHandle))).1 }) := by
  obtain ⟨m, hm, hrm⟩ := mem_rd ws NULL hfree
  obtain ⟨j, A, -, hj2, hj3, hj4, hj5, hj6⟩ :=
    registerLoop_first_empty env.xTaskGetCurrentTaskHandle ws ws.length 0
      ⟨m, Nat.zero_le _, by omega, hrm⟩
  have hjlt : j < ws.length := by omega
  have hn : c.tasksLenth.toNat = ws.length := by
    have := hready.2.2
    omega
  have hslots : slots c = ws := by simp [slots, hready.2.1]
  have hput : putFirst env.xTaskGetCurrentTaskHandle ws
      = ws.set j env.xTaskGetCurrentTaskHandle := by
    have h1 := (registerLoop_spec env.xTaskGetCurrentTaskHandle [] ws).1
    simp only [List.length_nil, List.nil_append] at h1
    rw [← h1, hj5]
  obtain ⟨-, -, h3, h4⟩ := timedwait_ready env c ws mutex abstime hready
  refine ⟨j, A, hjlt, hj3, fun m hmj => hj4 m (Nat.zero_le _) hmj, ?_, ?_, ?_, ?_, ?_, ?_, ?_⟩
  · rw [hn, hslots, hj5]
  · simpa [List.range_eq_range'] using hj6
  · rw [rd_set]
    simp [hjlt]
  · intro i hi
    rw [rd_set]
    have : ¬ (j = i ∧ j < ws.length) := fun h => hi h.1.symm
    simp [this]
  · exact occupied_set_length ws j _ hjlt hj3 hcur
  · intro hd hu
    rw [(h3 hd hfree hu).2, hput]
  · intro hd hu
    rw [(h4 hd hfree hu).2, hput]

/-- C16 at an array whose first empty slot is slot 1: the caller, task `14`, is
written there. -/
theorem registration_fills_lowest_empty_slot_witness :
    Ready oneWaiterCond [11, 0, 0] ∧
    (registerLoop exampleEnv.xTaskGetCurrentTaskHandle oneWaiterCond.tasksLenth.toNat 0
      (slots oneWaiterCond)).1 = [11, 14, 0] ∧
    (pthread_cond_timedwait unlockFailsEnv oneWaiterCond 1 none).cond
      = ⟨true, some [11, 14, 0], 3⟩ ∧
    ∃ j A, j < [11, 0, 0].length ∧ rd [11, 0, 0] j = NULL ∧
      (∀ m, m < j → rd [11, 0, 0] m ≠ NULL) ∧
      registerLoop exampleEnv.xTaskGetCurrentTaskHandle oneWaiterCond.tasksLenth.toNat 0
          (slots oneWaiterCond)
        = ([11, 0, 0].set j exampleEnv.xTaskGetCurrentTaskHandle, true,
            A ++ [Event.slotWrite j exampleEnv.xTaskGetCurrentTaskHandle]) :=
  have h := registration_fills_lowest_empty_slot exampleEnv oneWaiterCond [11, 0, 0] 1 none
    (by decide) (by decide) (by decide)
  ⟨by decide, by decide, by decide,
    h.elim fun j hj => hj.elim fun A hA => ⟨j, A, hA.1, hA.2.1, hA.2.2.1, hA.2.2.2.1⟩⟩

/-- C17: on an initialised condition variable with waiters, also when several of
them share the highest priority, `pthread_cond_signal` selects the occupied slot
of lowest index among those of maximal priority: the slot `j` it notifies and
empties has a priority at least that of every occupied slot and strictly greater
than that of every occupied slot before it. -/
theorem signal_breaks_ties_by_lowest_slot (env : Env) (c : pthread_cond_internal_t)
    (ws : List TaskHandle_t) (hready : Ready c ws) (hocc : ∃ h, h ∈ ws ∧ h ≠ NULL) :
    ∃ j, j < ws.length ∧ rd ws j ≠ NULL ∧
      (∀ m, m < ws.length → rd ws m ≠ NULL →
        env.uxTaskPriorityGet (rd ws m) ≤ env.uxTaskPriorityGet (rd ws j)) ∧
      (∀ m, m < j → rd ws m ≠ NULL →
        env.uxTaskPriorityGet (rd ws m) < env.uxTaskPriorityGet (rd ws j)) ∧
      (∀ m, m < ws.length → rd ws m ≠ NULL →
        env.uxTaskPriorityGet (rd ws m) = env.uxTaskPriorityGet (rd ws j) → j ≤ m) ∧
      notified (pthread_cond_signal env c).trace = [rd ws j] ∧
      Event.slotWrite j NULL ∈ (pthread_cond_signal env c).trace ∧
      (pthread_cond_signal env c).cond = { c with xTasksWaiting := some (ws.set j NULL) } := by
  obtain ⟨j, ⟨hj, hne, hmax, hfirst⟩, -, hcond, hnot, hwrite⟩ :=
    pthread_cond_signal_pick env c ws hready hocc
  refine ⟨j, hj, hne, hmax, hfirst, ?_, hnot, hwrite, hcond⟩
  intro m _ hm heq
  by_contra hlt
  have := hfirst m (by omega) hm
  omega

/-- C17 at waiters of priorities 1, 3, 3 (tasks `11`, `13`, `23`): the signal wakes
task `13`, in slot 1, the first of the two of priority 3. -/
theorem signal_breaks_ties_by_lowest_slot_witness :
    Ready ⟨true, some [11, 13, 23], 3⟩ [11, 13, 23] ∧
    List.map tieEnv.uxTaskPriorityGet [11, 13, 23] = [1, 3, 3] ∧
    notified (pthread_cond_signal tieEnv ⟨true, some [11, 13, 23], 3⟩).trace = [13] ∧
    (pthread_cond_signal tieEnv ⟨true, some [11, 13, 23], 3⟩).cond
      = ⟨true, some [11, 0, 23], 3⟩ ∧
    ∃ j, j < [11, 13, 23].length ∧ rd [11, 13, 23] j ≠ NULL ∧
      (∀ m, m < [11, 13, 23].length → rd [11, 13, 23] m ≠ NULL →
        tieEnv.uxTaskPriorityGet (rd [11, 13, 23] m) = tieEnv.uxTaskPriorityGet
          (rd [11, 13, 23] j) → j ≤ m) ∧
      notified (pthread_cond_signal tieEnv ⟨true, some [11, 13, 23], 3⟩).trace
        = [rd [11, 13, 23] j] :=
  have h := signal_breaks_ties_by_lowest_slot tieEnv ⟨true, some [11, 13, 23], 3⟩
    [11, 13, 23] (by decide) ⟨11, by decide, by decide⟩
  ⟨by decide, by decide, by decide, by decide,
    h.elim fun j hj => ⟨j, hj.1, hj.2.1, hj.2.2.2.2.1, hj.2.2.2.2.2.1⟩⟩

/-- C18: on an initialised condition variable with at least one occupied slot,
`pthread_cond_signal` empties exactly the slot `j` of the task it notified: that
slot becomes empty, every other slot keeps its content, the capacity and the
initialised flag are unchanged, and the number of occupied slots decreases by
exactly one. -/
theorem signal_empties_only_the_notified_slot (env : Env) (c : pthread_cond_internal_t)
    (ws : List TaskHandle_t) (hready : Ready c ws) (hocc : ∃ h, h ∈ ws ∧ h ≠ NULL) :
    ∃ j, j < ws.length ∧ rd ws j ≠ NULL ∧
      notified (pthread_cond_signal env c).trace = [rd ws j] ∧
      (pthread_cond_signal env c).cond = { c with xTasksWaiting := some (ws.set j NULL) } ∧
      rd (slots (pthread_cond_signal env c).cond) j = NULL ∧
      (∀ i, i ≠ j → rd (slots (pthread_cond_signal env c).cond) i = rd ws i) ∧
      (slots (pthread_cond_signal env c).cond).length = ws.length ∧
      (pthread_cond_signal env c).cond.tasksLenth = c.tasksLenth ∧
      (pthread_cond_signal env c).cond.xIsInitialized = c.xIsInitialized ∧
      (occupied (slots (pthread_cond_signal env c).cond)).length + 1
        = (occupied ws).length := by
  obtain ⟨j, ⟨hj, hne, -, -⟩, -, hcond, hnot, -⟩ :=
    pthread_cond_signal_pick env c ws hready hocc
  refine ⟨j, hj, hne, hnot, hcond, ?_, ?_, ?_, ?_, ?_, ?_⟩
  · rw [hcond]
    simp only [slots, Option.getD_some, rd_set]
    simp [hj]
  · intro i hi
    rw [hcond]
    simp only [slots, Option.getD_some, rd_set]
    have : ¬ (j = i ∧ j < ws.length) := fun h => hi h.1.symm
    simp [this]
  · rw [hcond]
    simp [slots]
  · rw [hcond]
  · rw [hcond]
  · rw [hcond]
    simp only [slots, Option.getD_some]
    have := (occupied_set_perm ws j hne).length_eq
    simp only [List.length_cons] at this
    omega

/-- C18 at three waiters: the signal notifies task `13` and empties slot 1 only. -/
theorem signal_empties_only_the_notified_slot_witness :
    Ready exampleCond [11, 13, 12] ∧
    notified (pthread_cond_signal exampleEnv exampleCond).trace = [13] ∧
    (pthread_cond_signal exampleEnv exampleCond).cond = ⟨true, some [11, 0, 12], 3⟩ ∧
    ∃ j, j < [11, 13, 12].length ∧ rd [11, 13, 12] j ≠ NULL ∧
      notified (pthread_cond_signal exampleEnv exampleCond).trace = [rd [11, 13, 12] j] ∧
      (pthread_cond_signal exampleEnv exampleCond).cond
        = { exampleCond with xTasksWaiting := some ([11, 13, 12].set j NULL) } :=
  have h := signal_empties_only_the_notified_slot exampleEnv exampleCond [11, 13, 12]
    (by decide) ⟨11, by decide, by decide⟩
  ⟨by decide, by decide, by decide,
    h.elim fun j hj => ⟨j, hj.1, hj.2.1, hj.2.2.1, hj.2.2.2.1⟩⟩

/-- C19: on an initialised condition variable, in a call of
`pthread_cond_timedwait` in which the caller was registered in a slot (there was
an empty one) but `pthread_mutex_unlock` returns a non-zero status `e`, the call
returns `e`; its only mutex call is that unlock, so it neither blocks nor calls
`pthread_mutex_lock`; its slot accesses are the reads and the one write of the
registration, the de-registration scan being skipped, and on return the calling
task's handle is still in the waiter array.  A later `pthread_cond_signal` can
then notify that task, which is not waiting: it does so as soon as the task has
a strictly greater priority than every other waiter. -/
theorem failed_unlock_leaves_caller_registered (env env' : Env)
    (c : pthread_cond_internal_t) (ws : List TaskHandle_t) (mutex : Nat)
    (abstime : Option timespec) (hready : Ready c ws)
    (hcur : env.xTaskGetCurrentTaskHandle ≠ NULL)
    (hconv : (deadlineToDelay env abstime).1 = 0) (hfree : NULL ∈ ws)
    (hunlock : env.pthread_mutex_unlock mutex ≠ 0) :
    (pthread_cond_timedwait env c mutex abstime).status = env.pthread_mutex_unlock mutex ∧
    syncCalls (pthread_cond_timedwait env c mutex abstime).trace
      = [Event.pthread_mutex_unlock mutex (env.pthread_mutex_unlock mutex)] ∧
    (∃ j, slotAccesses (pthread_cond_timedwait env c mutex abstime).trace
      = (List.range (j + 1)).map Event.slotRead
          ++ [Event.slotWrite j env.xTaskGetCurrentTaskHandle]) ∧
    env.xTaskGetCurrentTaskHandle ∈ slots (pthread_cond_timedwait env c mutex abstime).cond ∧
    ((∀ h, h ∈ ws → h ≠ NULL → h ≠ env.xTaskGetCurrentTaskHandle →
        env'.uxTaskPriorityGet h < env'.uxTaskPriorityGet env.xTaskGetCurrentTaskHandle) →
      notified (pthread_cond_signal env' (pthread_cond_timedwait env c mutex abstime).cond).trace
        = [env.xTaskGetCurrentTaskHandle]) := by
  obtain ⟨-, -, h3, -⟩ := timedwait_ready env c ws mutex abstime hready
  obtain ⟨hst, hcond⟩ := h3 hconv hfree hunlock
  have htrace := timedwait_failed_unlock_trace env c ws mutex abstime hready hconv hfree hunlock
  have hmemcur := cur_mem_putFirst env.xTaskGetCurrentTaskHandle ws hcur hfree
  refine ⟨hst, ?_, ?_, ?_, ?_⟩
  · rw [htrace]
    simp only [syncCalls_append, deadlineToDelay_syncCalls, registerLoop_syncCalls]
    rfl
  · obtain ⟨m, hm, hrm⟩ := mem_rd ws NULL hfree
    obtain ⟨j, A, -, -, -, -, hj5, hj6⟩ :=
      registerLoop_first_empty env.xTaskGetCurrentTaskHandle ws ws.length 0
        ⟨m, Nat.zero_le _, by omega, hrm⟩
    refine ⟨j, ?_⟩
    rw [htrace, hj5]
    simp only [slotAccesses_append, deadlineToDelay_slotAccesses, hj6]
    simp [slotAccesses, List.range_eq_range']
  · rw [hcond]
    simpa [slots] using hmemcur
  · intro hprio
    rw [hcond]
    have hready' := ready_putFirst c ws env.xTaskGetCurrentTaskHandle hready
    obtain ⟨j, ⟨-, hne, hmax, -⟩, -, -, hnot, -⟩ :=
      pthread_cond_signal_pick env' _ (putFirst env.xTaskGetCurrentTaskHandle ws) hready'
        ⟨_, hmemcur, hcur⟩
    rw [hnot]
    by_contra hdiff
    have hjne : rd (putFirst env.xTaskGetCurrentTaskHandle ws) j
        ≠ env.xTaskGetCurrentTaskHandle := fun h => hdiff (by rw [h])
    have hin := rd_mem _ j hne
    rcases mem_putFirst _ _ _ hin with h | h
    · exact hjne h
    · have hlt := hprio _ h hne hjne
      obtain ⟨m, hm, hrm⟩ := mem_rd _ _ hmemcur
      have hmne : rd (putFirst env.xTaskGetCurrentTaskHandle ws) m ≠ NULL := by
        rw [hrm]; exact hcur
      have hle := hmax m hm hmne
      rw [hrm] at hle
      omega

/-- C19 at a condition variable where task `11` waits: task `14` calls
`pthread_cond_wait` with a mutex whose unlock fails with status 1; the call
returns 1 with `14` left in slot 1, and a later signal notifies task `14`. -/
theorem failed_unlock_leaves_caller_registered_witness :
    Ready oneWaiterCond [11, 0, 0] ∧
    (pthread_cond_timedwait unlockFailsEnv oneWaiterCond 1 none).status = 1 ∧
    (pthread_cond_timedwait unlockFailsEnv oneWaiterCond 1 none).cond
      = ⟨true, some [11, 14, 0], 3⟩ ∧
    syncCalls (pthread_cond_timedwait unlockFailsEnv oneWaiterCond 1 none).trace
      = [Event.pthread_mutex_unlock 1 (unlockFailsEnv.pthread_mutex_unlock 1)] ∧
    notified (pthread_cond_signal exampleEnv
        (pthread_cond_timedwait unlockFailsEnv oneWaiterCond 1 none).cond).trace
      = [unlockFailsEnv.xTaskGetCurrentTaskHandle] :=
  have h := failed_unlock_leaves_caller_registered unlockFailsEnv exampleEnv oneWaiterCond
    [11, 0, 0] 1 none (by decide) (by decide) rfl (by decide) (by decide)
  ⟨by decide, h.1, by decide, h.2.1, h.2.2.2.2 (by decide)⟩

/-- C20: in every call of `pthread_cond_timedwait` that reaches the blocking
`xTaskNotifyWait`, `pthread_mutex_lock` is then called; if the wait reported a
notification the returned status is exactly the value that `pthread_mutex_lock`
returned (so the call returns 0 if and only if the re-lock returned 0); if the
wait reported a timeout the returned status is `ETIMEDOUT` whatever
`pthread_mutex_lock` returned. -/
theorem status_after_the_blocking_wait (env : Env) (c : pthread_cond_internal_t)
    (mutex : Nat) (abstime : Option timespec) :
    (∀ d, Event.xTaskNotifyWait d true ∈ (pthread_cond_timedwait env c mutex abstime).trace →
      Event.pthread_mutex_lock mutex (env.pthread_mutex_lock mutex)
        ∈ (pthread_cond_timedwait env c mutex abstime).trace ∧
      (pthread_cond_timedwait env c mutex abstime).status = env.pthread_mutex_lock mutex ∧
      ((pthread_cond_timedwait env c mutex abstime).status = 0 ↔
        env.pthread_mutex_lock mutex = 0)) ∧
    (∀ d, Event.xTaskNotifyWait d false ∈ (pthread_cond_timedwait env c mutex abstime).trace →
      Event.pthread_mutex_lock mutex (env.pthread_mutex_lock mutex)
        ∈ (pthread_cond_timedwait env c mutex abstime).trace ∧
      (pthread_cond_timedwait env c mutex abstime).status = ETIMEDOUT) := by
  have key : ∀ d r,
      Event.xTaskNotifyWait d r ∈ (pthread_cond_timedwait env c mutex abstime).trace →
      Event.pthread_mutex_lock mutex (env.pthread_mutex_lock mutex)
        ∈ (pthread_cond_timedwait env c mutex abstime).trace ∧
      (pthread_cond_timedwait env c mutex abstime).status
        = (if r = true then env.pthread_mutex_lock mutex else ETIMEDOUT) := by
    intro d r hin
    rcases timedwait_wait_or_not env c mutex abstime with h | ⟨pre, post, ht, hpre, hpost, hst⟩
    · have := mem_waitDelays d r _ hin
      rw [h] at this
      simp at this
    · rw [ht] at hin ⊢
      simp only [List.mem_append, List.mem_cons, List.mem_singleton, List.not_mem_nil,
        or_false, reduceCtorEq, false_or, Event.xTaskNotifyWait.injEq] at hin
      rcases hin with (hin | hin) | hin
      · have := mem_waitDelays d r _ hin
        rw [hpre] at this
        simp at this
      · refine ⟨by simp, ?_⟩
        rw [hst, hin.2]
      · have := mem_waitDelays d r _ hin
        rw [hpost] at this
        simp at this
  refine ⟨?_, ?_⟩
  · intro d hin
    obtain ⟨h1, h2⟩ := key d true hin
    simp only [if_true] at h2
    exact ⟨h1, h2, by rw [h2]⟩
  · intro d hin
    obtain ⟨h1, h2⟩ := key d false hin
    simp only [Bool.false_eq_true, if_false] at h2
    exact ⟨h1, h2⟩

/-- C20 on two executions whose re-lock fails with status 1: after a notification
the call returns 1, after a timeout it returns `ETIMEDOUT`. -/
theorem status_after_the_blocking_wait_witness :
    (pthread_cond_timedwait relockFailsEnv oneWaiterCond 1 none).status = 1 ∧
    (pthread_cond_timedwait timeoutRelockFailsEnv oneWaiterCond 1 (some ⟨1, 0⟩)).status
      = ETIMEDOUT ∧
    Event.pthread_mutex_lock 1 1
      ∈ (pthread_cond_timedwait timeoutRelockFailsEnv oneWaiterCond 1 (some ⟨1, 0⟩)).trace :=
  have h := (status_after_the_blocking_wait relockFailsEnv oneWaiterCond 1 none).1
    4294967295 (by decide)
  have h' := (status_after_the_blocking_wait timeoutRelockFailsEnv oneWaiterCond 1
    (some ⟨1, 0⟩)).2 5 (by decide)
  ⟨h.2.1, h'.2, h'.1⟩

/-- C14 at its failing input.  After `pthread_cond_init` with capacity 3 every slot
is empty and the invariant holds.  Task `14` calls `pthread_cond_wait` with a mutex
whose unlock fails with status 1: the call returns 1 and leaves `14` in slot 0, the
invariant still holds.  Task `14` makes the same call again: it returns 1 and now
`14` occupies slots 0 and 1, so this complete call did not preserve the invariant.
The paths through the blocking wait clear the caller's slot; the path of the
failed unlock does not. -/
theorem failed_unlock_breaks_one_slot_per_task :
    (pthread_cond_init exampleEnv 3 staticCond).cond = ⟨true, some [0, 0, 0], 3⟩ ∧
    SlotsDistinct [0, 0, 0] ∧
    (pthread_cond_wait unlockFailsEnv ⟨true, some [0, 0, 0], 3⟩ 1).status = 1 ∧
    (pthread_cond_wait unlockFailsEnv ⟨true, some [0, 0, 0], 3⟩ 1).cond
      = ⟨true, some [14, 0, 0], 3⟩ ∧
    SlotsDistinct [14, 0, 0] ∧
    (pthread_cond_wait unlockFailsEnv ⟨true, some [14, 0, 0], 3⟩ 1).status = 1 ∧
    (pthread_cond_wait unlockFailsEnv ⟨true, some [14, 0, 0], 3⟩ 1).cond
      = ⟨true, some [14, 14, 0], 3⟩ ∧
    ¬ SlotsDistinct (slots (pthread_cond_wait unlockFailsEnv ⟨true, some [14, 0, 0], 3⟩ 1).cond) ∧
    (pthread_cond_wait exampleEnv ⟨true, some [0, 0, 0], 3⟩ 1).cond
      = ⟨true, some [0, 0, 0], 3⟩ ∧
    (pthread_cond_wait notifiedEnv ⟨true, some [0, 0, 0], 3⟩ 1).cond
      = ⟨true, some [0, 0, 0], 3⟩ := by
  decide

end PthreadCond
